import Mathlib

/-!
Verification development for the banda-cli release-deployment workflow.

The definitions below are a shallow embedding of the TypeScript sources:
`src/utils/utils.ts` (pure string helpers and the tag-existence check),
`src/cmds/deploy.ts` (the `deploy` command: parameter negotiation
`getVariables`, the resumable workflow engine `run`, and `finish`).
External effects (git commands, prompts, the file system) are modelled by
explicit environments of outcomes, an explicit progress-file state, and a
trace of emitted side-effect events.
-/

namespace Banda

/-! ## String helpers: the semver regex, JS `replace` and `parseInt`

The source validates versions with `semverRegex = /^\d+\.\d+\.\d+$/`
(src/cmds/deploy.ts line 41, re-exported via utils/constants) and derives the
suggested next version with two regex replacements and `parseInt`
(src/utils/utils.ts lines 131-139).
-/

/-- Exact integer denoted by a digit string, consumed left to right.  This is
the mathematical value of the digits, before any floating-point rounding. -/
def digitsToNat (l : List Char) : Nat :=
  l.foldl (fun n c => 10 * n + (c.toNat - 48)) 0

/-- Floor of the base-2 logarithm by fuelled halving.  The fuel bounds the
number of halvings; 1100 halvings cover every magnitude below the IEEE-754
double overflow threshold 2^1024, which is the regime this model covers. -/
def log2Fuel : Nat → Nat → Nat
  | 0, _ => 0
  | fuel + 1, n => if n < 2 then 0 else log2Fuel fuel (n / 2) + 1

/-- Integer value of the IEEE-754 binary64 double nearest to the natural
number `n` (round to nearest, ties to even), for magnitudes below the
overflow threshold 2^1024.  Integers below 2^53 are represented exactly;
larger ones are rounded to 53 significant bits: with `e` chosen so that
`n / 2^e` lies in `[2^52, 2^53)`, the value is the nearest multiple of
`2^e`, ties resolved to the even quotient. -/
def roundToDouble (n : Nat) : Nat :=
  if n < 2 ^ 53 then n
  else
    let e := log2Fuel 1100 n - 52
    let q := n / 2 ^ e
    let r := n % 2 ^ e
    if 2 * r < 2 ^ e then q * 2 ^ e
    else if 2 * r > 2 ^ e then (q + 1) * 2 ^ e
    else if q % 2 = 0 then q * 2 ^ e else (q + 1) * 2 ^ e

/-- JS `+ 1` on a number holding the integer `n`: IEEE-754 addition computes
the exact sum and rounds it to the nearest representable double (ties to
even).  At `n = 2^53` the sum `2^53 + 1` is not representable and rounds
back down to `2^53`. -/
def jsAddOne (n : Nat) : Nat :=
  roundToDouble (n + 1)

/-- `/^\d+\.\d+\.\d+$/.test` on a character list: digits, a dot, digits, a
dot, digits, end of input.  The `\d+` pieces are greedy and a digit can never
match `\.`, so no backtracking arises and the greedy scan below is exact. -/
def semverChars (l : List Char) : Bool :=
  let d1 := l.takeWhile Char.isDigit
  match l.dropWhile Char.isDigit with
  | c1 :: r1 =>
    c1 == '.' &&
      (let d2 := r1.takeWhile Char.isDigit
       match r1.dropWhile Char.isDigit with
       | c2 :: r2 =>
         c2 == '.' && !d1.isEmpty && !d2.isEmpty && !r2.isEmpty && r2.all Char.isDigit
       | [] => false)
  | [] => false

/-- `semverRegex.test s` for `semverRegex = /^\d+\.\d+\.\d+$/`. -/
def semverTest (s : String) : Bool :=
  semverChars s.data

/-- Does the pattern `\.\d+\.\d+$` match at the start of `l` (i.e. does `l`
consist of a dot, digits, a dot and digits, to the end)? -/
def dotNumDotNumToEnd (l : List Char) : Bool :=
  match l with
  | c :: rest =>
    c == '.' &&
      (let d1 := rest.takeWhile Char.isDigit
       match rest.dropWhile Char.isDigit with
       | c2 :: r2 => c2 == '.' && !d1.isEmpty && !r2.isEmpty && r2.all Char.isDigit
       | [] => false)
  | [] => false

/-- `s.replace(/\.\d+\.\d+$/, '')`: scan left to right for the first position
where the anchored suffix pattern matches, and delete the match (which
necessarily extends to the end of the string). -/
def replaceDotNumDotNumSuffix (l : List Char) : List Char :=
  if dotNumDotNumToEnd l then []
  else
    match l with
    | [] => []
    | c :: rest => c :: replaceDotNumDotNumSuffix rest

/-- `s.replace(/^\d+\./, '')`: if the string starts with one or more digits
followed by a dot, drop that prefix, else leave the string unchanged. -/
def replaceLeadingNumDot (l : List Char) : List Char :=
  let d := l.takeWhile Char.isDigit
  if d.isEmpty then l
  else
    match l.dropWhile Char.isDigit with
    | c :: rest => if c == '.' then rest else l
    | [] => l

/-- `parseInt(s, 10)` restricted to the inputs the source feeds it (strings
beginning with a digit or junk): JS parses the leading digit run to its exact
value and returns the nearest double, so the result is
`roundToDouble (digitsToNat d)`; `none` stands for JS `NaN` when there is no
leading digit. -/
def jsParseIntDigits (l : List Char) : Option Nat :=
  let d := l.takeWhile Char.isDigit
  if d.isEmpty then none else some (roundToDouble (digitsToNat d))

/-- The unguarded suggestion chain shared by src/utils/utils.ts lines 135-138
and the inline copy in `getVariables` (src/cmds/deploy.ts): strip the last two
version components, then append `. (parseInt(minor) + 1) .0` where the minor
component is read with `parseInt` after stripping the leading `major.` and the
`+ 1` is IEEE-754 double addition (`jsAddOne`).  JS renders an integral double
below 10^21 as its exact decimal digits, which `toString` reproduces; every
value reached in the theorems below is in that regime. -/
def suggestedVersionCore (v : String) : String :=
  let base := String.mk (replaceDotNumDotNumSuffix v.data)
  base ++ "." ++
    (match jsParseIntDigits (replaceLeadingNumDot v.data) with
     | some n => toString (jsAddOne n)
     | none => "NaN") ++ ".0"

/-- `getSuggestedNextRepositoryVersion` (src/utils/utils.ts lines 131-139). -/
def getSuggestedNextRepositoryVersion (currentVersion : String) : String :=
  if semverTest currentVersion = false then "1.0.0"
  else suggestedVersionCore currentVersion

/-- `createReleaseTag` (src/utils/utils.ts lines 247-249). -/
def createReleaseTag (versionNumber : String) : String :=
  "v" ++ versionNumber

/-- `createReleaseBranchName` (src/utils/utils.ts lines 256-258). -/
def createReleaseBranchName (branchName : String) : String :=
  "release/" ++ branchName

/-- `createDevelopmentMergeBranchName` (src/utils/utils.ts lines 266-268). -/
def createDevelopmentMergeBranchName (targetBranch developmentBranch : String) : String :=
  "merge-banda/" ++ targetBranch ++ "-to-" ++ developmentBranch

/-- `doesTagExist` (src/utils/utils.ts lines 115-121):
`try { fetch --all --tags --force; return !!(tag -l tag) } catch {}; return true`.
`fetchOk` is whether the fetch command succeeds; `listResult` is the output of
the tag listing (`none` when that command itself throws). -/
def doesTagExist (fetchOk : Bool) (listResult : Option String) : Bool :=
  if fetchOk then
    match listResult with
    | some output => output ≠ ""
    | none => true
  else true

/-- The version-entry loop of `getVariables` (src/cmds/deploy.ts):
`while (!v || !semverRegex.test(v)) { if (v) logError(VersionFormatWrong, v); v = prompt() }`,
started from the initial module value of the variable (the empty string).
`answers` are the successive prompt results; the result is the accepted value
together with how many format-error messages were printed, `none` when the
answers ran out before a valid one arrived (the real loop would keep
prompting). -/
def versionPromptLoop (v : String) (answers : List String) : Option (String × Nat) :=
  if v ≠ "" && semverTest v then some (v, 0)
  else
    let errs := if v ≠ "" then 1 else 0
    match answers with
    | [] => none
    | a :: rest =>
      match versionPromptLoop a rest with
      | some (accepted, n) => some (accepted, n + errs)
      | none => none

/-! ## Data model: negotiated parameters, progress files, events, errors -/

/-- `UsersVariables` (src/cmds/deploy.ts): the negotiated parameters, exactly
the fields serialised by `saveUsersVariables` and restored by
`loadUsersVariables`. -/
structure UsersVariables where
  remote : String
  sourceBranch : String
  targetBranch : String
  developmentBranch : String
  packageVersion : String
  nextPackageVersion : String
  tag : String
deriving DecidableEq, Repr

/-- The five stage lock files of `progressFile` (src/cmds/deploy.ts). -/
inductive LockFile where
  | sourceMerge
  | targetMerge
  | tagging
  | developmentPull
  | developmentMerge
deriving DecidableEq, Repr

/-- The durable checkpoint state for one working directory: the contents of
the variable save file (the parameter snapshot), and presence of each stage
lock file. -/
structure ProgressFiles where
  variableSaveFile : Option UsersVariables
  sourceMergeLock : Bool
  targetMergeLock : Bool
  taggingLock : Bool
  developmentPullMergeLock : Bool
  developmentMergeLock : Bool
deriving DecidableEq, Repr

/-- The state after `resetDeploy` (all six files unlinked). -/
def ProgressFiles.empty : ProgressFiles :=
  ⟨none, false, false, false, false, false⟩

def ProgressFiles.getLock (pf : ProgressFiles) : LockFile → Bool
  | .sourceMerge => pf.sourceMergeLock
  | .targetMerge => pf.targetMergeLock
  | .tagging => pf.taggingLock
  | .developmentPull => pf.developmentPullMergeLock
  | .developmentMerge => pf.developmentMergeLock

def ProgressFiles.setLock (pf : ProgressFiles) (l : LockFile) (b : Bool) : ProgressFiles :=
  match l with
  | .sourceMerge => { pf with sourceMergeLock := b }
  | .targetMerge => { pf with targetMergeLock := b }
  | .tagging => { pf with taggingLock := b }
  | .developmentPull => { pf with developmentPullMergeLock := b }
  | .developmentMerge => { pf with developmentMergeLock := b }

/-- Side-effecting operations performed by the deploy command, in program
order.  Read-only queries (existence checks, conflict checks, version reads)
are not recorded; their outcomes live in the environments below. -/
inductive Event where
  | createAndCheckoutBranch (branch fromBranch : String)
  | checkoutBranch (branch : String)
  | mergeBranch (branch : String)
  | updateRepositoryVersion (oldVersion newVersion : String)
  | commitToBranch
  | pushToRemote (remote branchOrTag : String) (setUpstream : Bool)
  | pullBranchFromRemote (remote branch : String)
  | deleteRemoteBranch (remote branch : String)
  | deleteLocalBranch (branch : String) (force : Bool)
  | createTag (tag : String)
  | touchLock (lock : LockFile)
  | unlinkLock (lock : LockFile)
  | saveUsersVariables (vars : UsersVariables)
deriving DecidableEq, Repr

/-- The structured halt reasons of src/utils/messages.ts (`ErrorMessage`),
restricted to those the deploy command raises; `rethrown` stands for
`Promise.reject(e)` of an underlying non-conflict git error. -/
inductive DeployError where
  | gitNotInstalled
  | currentDirectoryNotGitRepo
  | workspaceNotClean
  | remoteDoesNotExist (remote : String)
  | branchDoesNotExist (branch : String)
  | targetAndSourceBranchesMustDiffer
  | developmentAndTargetBranchesMustDiffer
  | mergeConflictsOnPullToFix (branch : String)
  | couldNotCheckOutBranch (branch : String)
  | tagExists (tag : String)
  | couldNotCreateBranch (branch : String)
  | fixReleaseBranchMergeConflicts (branch : String)
  | haveSomeoneMerge (branch : String)
  | cannotPushTags
  | mergeConflictsOnPull
  | errorOnPull (branch : String)
  | mergeConflictsOnMerge
  | rethrown
deriving DecidableEq, Repr

/-- Result of one section of the workflow: the events it emitted, the
progress-file state it left behind, and the error it rejected with (if any). -/
structure StepResult where
  trace : List Event
  files : ProgressFiles
  error : Option DeployError
deriving DecidableEq, Repr

/-- Sequencing of workflow sections: a rejection short-circuits, otherwise the
next section runs on the updated files and the traces concatenate. -/
def StepResult.andThen (r : StepResult) (k : ProgressFiles → StepResult) : StepResult :=
  match r.error with
  | some _ => r
  | none =>
    let s := k r.files
    ⟨r.trace ++ s.trace, s.files, s.error⟩

theorem StepResult.andThen_ok (tr : List Event) (pf : ProgressFiles)
    (k : ProgressFiles → StepResult) :
    StepResult.andThen ⟨tr, pf, none⟩ k =
      ⟨tr ++ (k pf).trace, (k pf).files, (k pf).error⟩ := rfl

theorem StepResult.andThen_err (tr : List Event) (pf : ProgressFiles) (e : DeployError)
    (k : ProgressFiles → StepResult) :
    StepResult.andThen ⟨tr, pf, some e⟩ k = ⟨tr, pf, some e⟩ := rfl

/-! ## The workflow engine `run` (src/cmds/deploy.ts)

Outcomes of the awaited operations whose results the code inspects.  Every
other operation's result is ignored by the source (`// TODO: do anything
here?` or a swallowed `catch`), so it needs no entry here.
-/

structure RunEnv where
  /-- `createAndCheckoutBranch(releaseBranch, targetBranch)` result. -/
  createReleaseBranchOk : Bool
  /-- whether `mergeBranch(sourceBranch)` resolves (no throw). -/
  mergeSourceOk : Bool
  /-- `doMergeConflictsExistOnCurrentBranch()` after a failed source merge. -/
  conflictsAfterSourceMerge : Bool
  /-- `getRepositoryVersion()` read on the release branch. -/
  releaseBranchVersion : String
  /-- `pushToRemote(remote, targetBranch)` result. -/
  pushTargetOk : Bool
  /-- `pushToRemote(remote, tag)` result. -/
  pushTagOk : Bool
  /-- `pullBranchFromRemote(remote, developmentBranch)` result. -/
  pullDevelopmentOk : Bool
  /-- `doMergeConflictsExistOnCurrentBranch()` after a failed development pull. -/
  conflictsAfterDevelopmentPull : Bool
  /-- whether `mergeBranch(targetBranch)` on the merge branch resolves. -/
  mergeTargetOk : Bool
  /-- `doMergeConflictsExistOnCurrentBranch()` after that merge failed. -/
  conflictsAfterTargetMerge : Bool
  /-- `getRepositoryVersion()` read on the development merge branch. -/
  mergeBranchVersion : String
  /-- `pushToRemote(remote, developmentBranch)` result. -/
  pushDevelopmentOk : Bool
deriving DecidableEq, Repr

/-- Lines 493-519 of the `run` source region: either create the release
branch off target and merge source into it (persisting the `sourceMerge` lock
on a conflicting merge), or — when the `sourceMerge` lock file was present —
just unlink that lock. -/
def sourceMergeSection (vars : UsersVariables) (env : RunEnv)
    (sourceMergeLockFileIsMissing : Bool) (pf : ProgressFiles) : StepResult :=
  let releaseBranch := createReleaseBranchName vars.tag
  if sourceMergeLockFileIsMissing then
    if !env.createReleaseBranchOk then
      ⟨[.createAndCheckoutBranch releaseBranch vars.targetBranch], pf,
        some (.couldNotCreateBranch releaseBranch)⟩
    else if env.mergeSourceOk then
      ⟨[.createAndCheckoutBranch releaseBranch vars.targetBranch,
        .mergeBranch vars.sourceBranch], pf, none⟩
    else if env.conflictsAfterSourceMerge then
      ⟨[.createAndCheckoutBranch releaseBranch vars.targetBranch,
        .mergeBranch vars.sourceBranch, .touchLock .sourceMerge],
        pf.setLock .sourceMerge true, some (.fixReleaseBranchMergeConflicts releaseBranch)⟩
    else
      ⟨[.createAndCheckoutBranch releaseBranch vars.targetBranch,
        .mergeBranch vars.sourceBranch], pf, some .rethrown⟩
  else
    ⟨[.unlinkLock .sourceMerge], pf.setLock .sourceMerge false, none⟩

/-- Lines 521-567: check out the release branch, bump the version if it
differs from the negotiated release version (committing the change), merge
the release branch to target and push target; on a failed push, push the
release branch upstream instead, persist the `targetMerge` lock and halt. -/
def releaseToTargetSection (vars : UsersVariables) (env : RunEnv)
    (pf : ProgressFiles) : StepResult :=
  let releaseBranch := createReleaseBranchName vars.tag
  let bumpEvents :=
    if env.releaseBranchVersion ≠ vars.packageVersion then
      [Event.updateRepositoryVersion env.releaseBranchVersion vars.packageVersion,
       Event.commitToBranch]
    else []
  let common :=
    Event.checkoutBranch releaseBranch :: bumpEvents ++
      [Event.checkoutBranch vars.targetBranch, Event.mergeBranch releaseBranch,
       Event.pushToRemote vars.remote vars.targetBranch false]
  if env.pushTargetOk then
    ⟨common, pf, none⟩
  else
    ⟨common ++
      [Event.checkoutBranch releaseBranch,
       Event.pushToRemote vars.remote releaseBranch true,
       Event.touchLock .targetMerge],
      pf.setLock .targetMerge true, some (.haveSomeoneMerge releaseBranch)⟩

/-- Lines 568-579: the `targetMerge` lock file was present — assume the
release branch was merged by someone else, unlink the lock and delete the
remote release branch. -/
def targetMergeRecoverySection (vars : UsersVariables) (pf : ProgressFiles) : StepResult :=
  ⟨[.unlinkLock .targetMerge,
    .deleteRemoteBranch vars.remote (createReleaseBranchName vars.tag)],
    pf.setLock .targetMerge false, none⟩

/-- Lines 581-590: delete the local release branch, refresh target from the
remote and create the annotated release tag (command results ignored). -/
def tagCreationSection (vars : UsersVariables) (pf : ProgressFiles) : StepResult :=
  ⟨[.deleteLocalBranch (createReleaseBranchName vars.tag) true,
    .checkoutBranch vars.targetBranch,
    .pullBranchFromRemote vars.remote vars.targetBranch,
    .createTag vars.tag], pf, none⟩

/-- Lines 591-595: the `tagging` lock file was present — just unlink it. -/
def taggingRecoverySection (pf : ProgressFiles) : StepResult :=
  ⟨[.unlinkLock .tagging], pf.setLock .tagging false, none⟩

/-- Lines 597-605: check out target and push the tag; on failure persist the
`tagging` lock and halt. -/
def tagPushSection (vars : UsersVariables) (env : RunEnv) (pf : ProgressFiles) : StepResult :=
  if env.pushTagOk then
    ⟨[.checkoutBranch vars.targetBranch, .pushToRemote vars.remote vars.tag false], pf, none⟩
  else
    ⟨[.checkoutBranch vars.targetBranch, .pushToRemote vars.remote vars.tag false,
      .touchLock .tagging], pf.setLock .tagging true, some .cannotPushTags⟩

/-- Lines 606-610: the `developmentPull` lock file was present — unlink it. -/
def developmentPullRecoverySection (pf : ProgressFiles) : StepResult :=
  ⟨[.unlinkLock .developmentPull], pf.setLock .developmentPull false, none⟩

/-- Lines 612-631: check out the development branch and pull it.  On a failed
pull the `developmentPull` lock is touched first, and then the halt reason
depends on whether merge conflicts are detected.  On success, create the
temporary development merge branch. -/
def developmentPullSection (vars : UsersVariables) (env : RunEnv)
    (pf : ProgressFiles) : StepResult :=
  let developmentMergeBranch :=
    createDevelopmentMergeBranchName vars.targetBranch vars.developmentBranch
  if env.pullDevelopmentOk then
    ⟨[.checkoutBranch vars.developmentBranch,
      .pullBranchFromRemote vars.remote vars.developmentBranch,
      .createAndCheckoutBranch developmentMergeBranch vars.developmentBranch], pf, none⟩
  else
    ⟨[.checkoutBranch vars.developmentBranch,
      .pullBranchFromRemote vars.remote vars.developmentBranch,
      .touchLock .developmentPull],
      pf.setLock .developmentPull true,
      some (if env.conflictsAfterDevelopmentPull then .mergeConflictsOnPull
            else .errorOnPull vars.developmentBranch)⟩

/-- Lines 632-636: the `developmentMerge` lock file was present — unlink it. -/
def developmentMergeRecoverySection (pf : ProgressFiles) : StepResult :=
  ⟨[.unlinkLock .developmentMerge], pf.setLock .developmentMerge false, none⟩

/-- Lines 638-691: on the merge branch, merge target (persisting the
`developmentMerge` lock on failure), bump the version to the next version if
needed, merge back to development and push; when the push fails, push the
merge branch upstream and delete it locally instead (not a rejection). -/
def finalSection (vars : UsersVariables) (env : RunEnv) (pf : ProgressFiles) : StepResult :=
  let developmentMergeBranch :=
    createDevelopmentMergeBranchName vars.targetBranch vars.developmentBranch
  let mergeEvents :=
    [Event.checkoutBranch developmentMergeBranch, Event.mergeBranch vars.targetBranch]
  if !env.mergeTargetOk then
    ⟨mergeEvents ++ [Event.touchLock .developmentMerge],
      pf.setLock .developmentMerge true,
      some (if env.conflictsAfterTargetMerge then .mergeConflictsOnMerge else .rethrown)⟩
  else
    let bumpEvents :=
      if env.mergeBranchVersion ≠ vars.nextPackageVersion then
        [Event.updateRepositoryVersion env.mergeBranchVersion vars.nextPackageVersion,
         Event.commitToBranch]
      else []
    let common :=
      mergeEvents ++ bumpEvents ++
        [Event.checkoutBranch vars.developmentBranch,
         Event.mergeBranch developmentMergeBranch,
         Event.pushToRemote vars.remote vars.developmentBranch false]
    if env.pushDevelopmentOk then
      ⟨common ++ [Event.deleteLocalBranch developmentMergeBranch false], pf, none⟩
    else
      ⟨common ++
        [Event.checkoutBranch developmentMergeBranch,
         Event.pushToRemote vars.remote developmentMergeBranch true,
         Event.deleteLocalBranch developmentMergeBranch true], pf, none⟩

/-- `run` (src/cmds/deploy.ts): the five lock-file presence flags are read
once at entry, and the nested skip structure of the source is reproduced with
`StepResult.andThen` joining each `if`/`else` to the code that follows it. -/
def run (vars : UsersVariables) (env : RunEnv) (pf : ProgressFiles) : StepResult :=
  let sourceMergeLockFileIsMissing := !pf.sourceMergeLock
  let targetMergeLockFileIsMissing := !pf.targetMergeLock
  let taggingLockFileIsMissing := !pf.taggingLock
  let developmentPullMergeLockFileIsMissing := !pf.developmentPullMergeLock
  let developmentMergeLockFileIsMissing := !pf.developmentMergeLock
  (if developmentMergeLockFileIsMissing then
    ((if developmentPullMergeLockFileIsMissing then
        ((if taggingLockFileIsMissing then
            ((if targetMergeLockFileIsMissing then
                (sourceMergeSection vars env sourceMergeLockFileIsMissing pf).andThen
                  (releaseToTargetSection vars env)
              else targetMergeRecoverySection vars pf).andThen
              (tagCreationSection vars))
          else taggingRecoverySection pf).andThen
          (tagPushSection vars env))
      else developmentPullRecoverySection pf).andThen
      (developmentPullSection vars env))
  else developmentMergeRecoverySection pf).andThen
  (finalSection vars env)

/-! ## Parameter negotiation `getVariables` (src/cmds/deploy.ts) -/

/-- Outcomes of the prompts and checks consulted by `getVariables`, in
program order. -/
structure GetVarsEnv where
  /-- confirm answer to `ContinuePreviousProcess` (used only when the
  variable save file exists). -/
  continueAnswer : Bool
  /-- answer to `GitRemoteToUse`. -/
  remoteAnswer : String
  /-- `doesRemoteExist(remote)` result. -/
  remoteExists : Bool
  /-- `getCurrentBranch()` result (empty when undeterminable). -/
  currentBranch : String
  /-- answer to `SourceBranchToUse`. -/
  sourceAnswer : String
  /-- `doesRemoteExist(remote, sourceBranch)` result. -/
  sourceExists : Bool
  /-- answer to `TargetBranchToUse`. -/
  targetAnswer : String
  /-- `doesRemoteExist(remote, targetBranch)` result. -/
  targetExists : Bool
  /-- answer to `DevelopmentBranchToUse`. -/
  developmentAnswer : String
  /-- `doesRemoteExist(remote, developmentBranch)` result. -/
  developmentExists : Bool
  /-- `checkoutBranch(targetBranch)` result. -/
  checkoutTargetOk : Bool
  /-- `isBranchCleanWhenUpdatedFromRemote(remote, targetBranch)` result. -/
  targetCleanFromRemote : Bool
  /-- `getRepositoryVersion()` on the target branch. -/
  targetVersion : String
  /-- `checkoutBranch(sourceBranch)` result. -/
  checkoutSourceOk : Bool
  /-- `isBranchCleanWhenUpdatedFromRemote(remote, sourceBranch)` result. -/
  sourceCleanFromRemote : Bool
  /-- `getRepositoryVersion()` on the source branch. -/
  sourceVersion : String
  /-- successive answers to the release-version prompt. -/
  versionAnswers : List String
  /-- `fetch --all --tags --force` success inside `doesTagExist`. -/
  tagFetchOk : Bool
  /-- `tag -l <tag>` output inside `doesTagExist` (`none` when it throws). -/
  tagListResult : Option String
  /-- successive answers to the next-version prompt. -/
  nextVersionAnswers : List String
deriving DecidableEq, Repr

deriving instance DecidableEq for Except

/-- Result of `getVariables`: trace, final progress files, outcome (the
module variables on success, paired with whether this was a resumed run), and
the `initialBranch` module variable (empty when never assigned). -/
structure GetVarsResult where
  trace : List Event
  files : ProgressFiles
  outcome : Except DeployError (UsersVariables × Bool)
  initialBranch : String
deriving DecidableEq, Repr

def defaultRemote : String := "origin"
def defaultSourceBranch : String := "develop"
def defaultTargetBranch : String := "master"
def defaultDevelopmentBranch : String := "develop"

/-- The fresh (non-resumed) path of `getVariables`: collect and validate the
six parameters, then save them.  `none` models the loops never receiving a
valid version (the real process would prompt forever). -/
def getVariablesFresh (env : GetVarsEnv) (pf : ProgressFiles) : Option GetVarsResult :=
  let remote := env.remoteAnswer
  if !env.remoteExists then
    some ⟨[], pf, .error (.remoteDoesNotExist remote), ""⟩
  else
    let initialBranch := env.currentBranch
    let _sourceBranchToSuggest :=
      if initialBranch = defaultTargetBranch || initialBranch = "" then defaultSourceBranch
      else initialBranch
    let sourceBranch := env.sourceAnswer
    if !env.sourceExists then
      some ⟨[], pf, .error (.branchDoesNotExist sourceBranch), initialBranch⟩
    else
      let targetBranch := env.targetAnswer
      if targetBranch = sourceBranch then
        some ⟨[], pf, .error .targetAndSourceBranchesMustDiffer, initialBranch⟩
      else if !env.targetExists then
        some ⟨[], pf, .error (.branchDoesNotExist targetBranch), initialBranch⟩
      else
        let developmentBranch := env.developmentAnswer
        if developmentBranch = targetBranch then
          some ⟨[], pf, .error .developmentAndTargetBranchesMustDiffer, initialBranch⟩
        else if developmentBranch ≠ sourceBranch && !env.developmentExists then
          some ⟨[], pf, .error (.branchDoesNotExist developmentBranch), initialBranch⟩
        else
          let tr1 := [Event.checkoutBranch targetBranch]
          if !env.checkoutTargetOk then
            some ⟨tr1, pf, .error (.couldNotCheckOutBranch targetBranch), initialBranch⟩
          else
            let tr2 := tr1 ++ [Event.pullBranchFromRemote remote targetBranch]
            if !env.targetCleanFromRemote then
              some ⟨tr2, pf, .error (.mergeConflictsOnPullToFix targetBranch), initialBranch⟩
            else
              let _targetPackageVersion := env.targetVersion
              let tr3 := tr2 ++ [Event.checkoutBranch sourceBranch]
              if !env.checkoutSourceOk then
                some ⟨tr3, pf, .error (.couldNotCheckOutBranch sourceBranch), initialBranch⟩
              else
                let tr4 := tr3 ++ [Event.pullBranchFromRemote remote sourceBranch]
                if !env.sourceCleanFromRemote then
                  some ⟨tr4, pf, .error (.mergeConflictsOnPullToFix sourceBranch), initialBranch⟩
                else
                  match versionPromptLoop "" env.versionAnswers with
                  | none => none
                  | some (packageVersion, _) =>
                    let tag := createReleaseTag packageVersion
                    if doesTagExist env.tagFetchOk env.tagListResult then
                      some ⟨tr4, pf, .error (.tagExists tag), initialBranch⟩
                    else
                      let _suggestedNextPackageVersion := suggestedVersionCore packageVersion
                      match versionPromptLoop "" env.nextVersionAnswers with
                      | none => none
                      | some (nextPackageVersion, _) =>
                        let vars : UsersVariables :=
                          ⟨remote, sourceBranch, targetBranch, developmentBranch,
                            packageVersion, nextPackageVersion, tag⟩
                        some ⟨tr4 ++ [Event.saveUsersVariables vars],
                          { pf with variableSaveFile := some vars },
                          .ok (vars, false), initialBranch⟩

/-- `getVariables` (src/cmds/deploy.ts lines 279-441): when the variable save
file exists, offer to resume (loading the saved variables verbatim) or reset
every progress file and negotiate afresh. -/
def getVariables (env : GetVarsEnv) (pf : ProgressFiles) : Option GetVarsResult :=
  match pf.variableSaveFile with
  | some saved =>
    if env.continueAnswer then some ⟨[], pf, .ok (saved, true), ""⟩
    else getVariablesFresh env ProgressFiles.empty
  | none => getVariablesFresh env pf

/-! ## Prerequisites, `finish` and `main` (src/cmds/deploy.ts) -/

structure PrereqEnv where
  gitInstalled : Bool
  isGitRepo : Bool
  workingDirectoryClean : Bool
deriving DecidableEq, Repr

/-- `checkPrerequisites`: git installed, the directory a git repository, the
working directory clean (in that order); `none` means all passed. -/
def checkPrerequisites (env : PrereqEnv) : Option DeployError :=
  if !env.gitInstalled then some .gitNotInstalled
  else if !env.isGitRepo then some .currentDirectoryNotGitRepo
  else if !env.workingDirectoryClean then some .workspaceNotClean
  else none

/-- `finish` (src/cmds/deploy.ts lines 697-705): `resetDeploy()` (all six
progress files unlinked), then check out `initialBranch || developmentBranch`.
Returns the reset state and the branch checked out. -/
def finish (initialBranch developmentBranch : String) (_pf : ProgressFiles) :
    ProgressFiles × String :=
  (ProgressFiles.empty, if initialBranch ≠ "" then initialBranch else developmentBranch)

/-- Reported outcome of a whole invocation: `finished` is the green
`Finished!` status; `failed e` is the caught rejection printed in red. -/
inductive MainStatus where
  | finished
  | failed (e : DeployError)
deriving DecidableEq, Repr

structure MainResult where
  trace : List Event
  files : ProgressFiles
  status : MainStatus
  /-- the branch `finish` checked out, when `finish` ran. -/
  checkedOutAtFinish : Option String
  /-- whether control reached the workflow engine `run`. -/
  workflowRan : Bool
deriving DecidableEq, Repr

/-- `main` (src/cmds/deploy.ts): `checkPrerequisites`, `getVariables`, `run`,
`finish`, any rejection caught and reported.  `none` models a run whose
version prompts never receive a valid answer. -/
def deployMain (penv : PrereqEnv) (genv : GetVarsEnv) (renv : RunEnv)
    (pf : ProgressFiles) : Option MainResult :=
  match checkPrerequisites penv with
  | some e => some ⟨[], pf, .failed e, none, false⟩
  | none =>
    match getVariables genv pf with
    | none => none
    | some g =>
      match g.outcome with
      | .error e => some ⟨g.trace, g.files, .failed e, none, false⟩
      | .ok (vars, _) =>
        let r := run vars renv g.files
        match r.error with
        | some e => some ⟨g.trace ++ r.trace, r.files, .failed e, none, true⟩
        | none =>
          let fin := finish g.initialBranch vars.developmentBranch r.files
          some ⟨g.trace ++ r.trace ++ [Event.checkoutBranch fin.2],
            fin.1, .finished, some fin.2, true⟩

/-! ## Stage structure used to state the resumption claims -/

/-- Position of the stage each lock file guards inside the six-stage
pipeline: 1 branch-and-merge-source, 2 version-bump, 3 merge-to-target,
4 tag-and-push, 5 merge-target-to-development (pull and temporary branch),
6 the development merge and finalisation. -/
def stageIndex : LockFile → Nat
  | .sourceMerge => 1
  | .targetMerge => 3
  | .tagging => 4
  | .developmentPull => 5
  | .developmentMerge => 6

/-- The operative marker of a checkpoint: the markers are consulted from the
latest stage inward, so a later marker overrides every earlier one. -/
def latestMarker (pf : ProgressFiles) : Option LockFile :=
  if pf.developmentMergeLock then some .developmentMerge
  else if pf.developmentPullMergeLock then some .developmentPull
  else if pf.taggingLock then some .tagging
  else if pf.targetMergeLock then some .targetMerge
  else if pf.sourceMergeLock then some .sourceMerge
  else none

/-- The primary (repository-mutating, non-cleanup) side effects each stage
owns: creating and merging the release branch (1), the release version bump
(2), merging release to target and pushing target (3), creating and pushing
the tag (4), pulling development and creating the temporary merge branch (5). -/
def primaryStageEffect (vars : UsersVariables) (stage : Nat) (e : Event) : Bool :=
  let releaseBranch := createReleaseBranchName vars.tag
  let developmentMergeBranch :=
    createDevelopmentMergeBranchName vars.targetBranch vars.developmentBranch
  match stage with
  | 1 => e == .createAndCheckoutBranch releaseBranch vars.targetBranch ||
         e == .mergeBranch vars.sourceBranch
  | 2 => match e with
         | .updateRepositoryVersion _ newVersion => newVersion == vars.packageVersion
         | _ => false
  | 3 => e == .mergeBranch releaseBranch ||
         e == .pushToRemote vars.remote vars.targetBranch false
  | 4 => e == .createTag vars.tag ||
         e == .pushToRemote vars.remote vars.tag false
  | 5 => e == .pullBranchFromRemote vars.remote vars.developmentBranch ||
         e == .createAndCheckoutBranch developmentMergeBranch vars.developmentBranch
  | _ => false

/-- Is `e` a primary side effect of a stage strictly earlier than the stage
marker `m` guards? -/
def isEarlierStageEffect (vars : UsersVariables) (m : LockFile) (e : Event) : Bool :=
  ((List.range (stageIndex m)).drop 1).any fun i => primaryStageEffect vars i e

/-- The cleanup a resumed run performs for its operative marker before
re-entering the pipeline: unlink the marker's lock file, plus (for
`targetMerge`) deleting the now-redundant remote release branch. -/
def markerCleanup (vars : UsersVariables) : LockFile → List Event
  | .sourceMerge => [.unlinkLock .sourceMerge]
  | .targetMerge => [.unlinkLock .targetMerge,
      .deleteRemoteBranch vars.remote (createReleaseBranchName vars.tag)]
  | .tagging => [.unlinkLock .tagging]
  | .developmentPull => [.unlinkLock .developmentPull]
  | .developmentMerge => [.unlinkLock .developmentMerge]

/-- Distinctness of the names of one release run: the two invariants
negotiation enforces, distinct release and next versions, and non-collision
of the derived names (which carry the `release/`, `merge-banda/` and `v`
prefixes) with the plain branch names.  Needed so that an event of a late
stage cannot be literally identical to an event of an early stage. -/
def namesSeparated (vars : UsersVariables) : Prop :=
  vars.sourceBranch ≠ vars.targetBranch ∧
  vars.targetBranch ≠ vars.developmentBranch ∧
  vars.packageVersion ≠ vars.nextPackageVersion ∧
  createReleaseBranchName vars.tag ≠ vars.targetBranch ∧
  createReleaseBranchName vars.tag ≠
    createDevelopmentMergeBranchName vars.targetBranch vars.developmentBranch ∧
  vars.sourceBranch ≠
    createDevelopmentMergeBranchName vars.targetBranch vars.developmentBranch ∧
  vars.targetBranch ≠
    createDevelopmentMergeBranchName vars.targetBranch vars.developmentBranch ∧
  vars.tag ≠ vars.targetBranch ∧
  vars.tag ≠ vars.developmentBranch

instance (vars : UsersVariables) : Decidable (namesSeparated vars) := by
  unfold namesSeparated
  infer_instance

/-- Recognises the snapshot-write event. -/
def isSaveVars : Event → Bool
  | .saveUsersVariables _ => true
  | _ => false

/-! ## Per-section event alphabets (everything a section can emit) -/

def sourceMergeEvents (vars : UsersVariables) : List Event :=
  let releaseBranch := createReleaseBranchName vars.tag
  [.createAndCheckoutBranch releaseBranch vars.targetBranch,
   .mergeBranch vars.sourceBranch, .touchLock .sourceMerge, .unlinkLock .sourceMerge]

def releaseToTargetEvents (vars : UsersVariables) (env : RunEnv) : List Event :=
  let releaseBranch := createReleaseBranchName vars.tag
  [.checkoutBranch releaseBranch,
   .updateRepositoryVersion env.releaseBranchVersion vars.packageVersion,
   .commitToBranch, .checkoutBranch vars.targetBranch, .mergeBranch releaseBranch,
   .pushToRemote vars.remote vars.targetBranch false,
   .pushToRemote vars.remote releaseBranch true, .touchLock .targetMerge]

def tagCreationEvents (vars : UsersVariables) : List Event :=
  [.deleteLocalBranch (createReleaseBranchName vars.tag) true,
   .checkoutBranch vars.targetBranch,
   .pullBranchFromRemote vars.remote vars.targetBranch, .createTag vars.tag]

def tagPushEvents (vars : UsersVariables) : List Event :=
  [.checkoutBranch vars.targetBranch, .pushToRemote vars.remote vars.tag false,
   .touchLock .tagging]

def developmentPullEvents (vars : UsersVariables) : List Event :=
  let developmentMergeBranch :=
    createDevelopmentMergeBranchName vars.targetBranch vars.developmentBranch
  [.checkoutBranch vars.developmentBranch,
   .pullBranchFromRemote vars.remote vars.developmentBranch,
   .createAndCheckoutBranch developmentMergeBranch vars.developmentBranch,
   .touchLock .developmentPull]

def finalEvents (vars : UsersVariables) (env : RunEnv) : List Event :=
  let developmentMergeBranch :=
    createDevelopmentMergeBranchName vars.targetBranch vars.developmentBranch
  [.checkoutBranch developmentMergeBranch, .mergeBranch vars.targetBranch,
   .touchLock .developmentMerge,
   .updateRepositoryVersion env.mergeBranchVersion vars.nextPackageVersion,
   .commitToBranch, .checkoutBranch vars.developmentBranch,
   .mergeBranch developmentMergeBranch,
   .pushToRemote vars.remote vars.developmentBranch false,
   .pushToRemote vars.remote developmentMergeBranch true,
   .deleteLocalBranch developmentMergeBranch false,
   .deleteLocalBranch developmentMergeBranch true]

/-! ## Concrete fixtures (the spec's happy-path scenario and variations) -/

/-- The parameter set of the spec's full happy-path scenario. -/
def happyVars : UsersVariables :=
  ⟨"origin", "develop", "master", "develop", "1.4.6", "1.5.0", "v1.4.6"⟩

/-- Workflow-operation outcomes in which every stage succeeds. -/
def happyRunEnv : RunEnv :=
  ⟨true, true, false, "1.5.0", true, true, true, false, true, false, "1.4.6", true⟩

/-- Negotiation outcomes for the happy-path scenario (fresh run, operator on
`feature`, versions `1.5.0`/`1.4.5`, release `1.4.6`, next `1.5.0`). -/
def happyGetVarsEnv : GetVarsEnv :=
  ⟨true, "origin", true, "feature", "develop", true, "master", true, "develop", true,
    true, true, "1.4.5", true, true, "1.5.0", ["1.4.6"], true, some "", ["1.5.0"]⟩

/-- The negotiation result of the happy-path scenario. -/
def happyGetVarsResult : GetVarsResult :=
  ⟨[.checkoutBranch "master", .pullBranchFromRemote "origin" "master",
    .checkoutBranch "develop", .pullBranchFromRemote "origin" "develop",
    .saveUsersVariables happyVars],
    { ProgressFiles.empty with variableSaveFile := some happyVars },
    .ok (happyVars, false), "feature"⟩

/-- Workflow-operation outcomes in which the development-branch pull fails
without any merge conflicts (for example a connection interruption). -/
def pullFailRunEnv : RunEnv :=
  ⟨true, true, false, "1.4.6", true, true, false, false, true, false, "1.5.0", true⟩

/-- A parameter snapshot whose stored tag disagrees with
`v<releaseVersion>`. -/
def savedTagMismatch : UsersVariables :=
  ⟨"origin", "develop", "master", "develop", "1.4.6", "1.5.0", "v9.9.9"⟩

/-- A negotiation environment that confirms resumption. -/
def resumeGetVarsEnv : GetVarsEnv :=
  ⟨true, "origin", true, "", "develop", true, "master", true, "develop", true,
    true, true, "", true, true, "", [], true, some "", []⟩

/-- A negotiation environment entering the same branch (`develop`) for source
and target. -/
def collideGetVarsEnv : GetVarsEnv :=
  ⟨true, "origin", true, "feature", "develop", true, "develop", true, "develop", true,
    true, true, "", true, true, "", [], true, some "", []⟩

/-- The happy-path negotiation environment except that the tag fetch inside
`doesTagExist` fails (e.g. the connection drops). -/
def fetchFailGetVarsEnv : GetVarsEnv :=
  ⟨true, "origin", true, "feature", "develop", true, "master", true, "develop", true,
    true, true, "1.4.5", true, true, "1.5.0", ["1.4.6"], false, none, ["1.5.0"]⟩

/-! ## Facts about the version-string helpers -/

theorem isEmpty_false_of_ne_nil {α : Type} {l : List α} (h : l ≠ []) :
    l.isEmpty = false := by
  cases l with
  | nil => exact absurd rfl h
  | cons x xs => rfl

theorem digit_ne_dot {x : Char} (h : x.isDigit = true) : (x == '.') = false := by
  cases hbe : (x == '.') with
  | false => rfl
  | true =>
    have hx : x = '.' := by
      have := hbe
      simpa using this
    subst hx
    exact absurd h (by decide)

theorem takeWhile_digits_append (a rest : List Char) (ha : a.all Char.isDigit = true) :
    (a ++ '.' :: rest).takeWhile Char.isDigit = a := by
  induction a with
  | nil =>
    have h : ('.' : Char).isDigit = false := by decide
    simp [List.takeWhile_cons, h]
  | cons x xs ih =>
    simp only [List.all_cons, Bool.and_eq_true] at ha
    simp [List.takeWhile_cons, ha.1, ih ha.2]

theorem dropWhile_digits_append (a rest : List Char) (ha : a.all Char.isDigit = true) :
    (a ++ '.' :: rest).dropWhile Char.isDigit = '.' :: rest := by
  induction a with
  | nil =>
    have h : ('.' : Char).isDigit = false := by decide
    simp [List.dropWhile_cons, h]
  | cons x xs ih =>
    simp only [List.all_cons, Bool.and_eq_true] at ha
    simp [List.dropWhile_cons, ha.1, ih ha.2]

theorem semverChars_parts (a b c : List Char)
    (ha : a.all Char.isDigit = true) (hb : b.all Char.isDigit = true)
    (hc : c.all Char.isDigit = true)
    (ha0 : a ≠ []) (hb0 : b ≠ []) (hc0 : c ≠ []) :
    semverChars (a ++ '.' :: (b ++ '.' :: c)) = true := by
  unfold semverChars
  rw [dropWhile_digits_append a _ ha, takeWhile_digits_append a _ ha]
  simp only
  rw [dropWhile_digits_append b _ hb, takeWhile_digits_append b _ hb]
  simp [isEmpty_false_of_ne_nil ha0, isEmpty_false_of_ne_nil hb0,
    isEmpty_false_of_ne_nil hc0, hc]

theorem dotNumDotNumToEnd_parts (b c : List Char)
    (hb : b.all Char.isDigit = true) (hc : c.all Char.isDigit = true)
    (hb0 : b ≠ []) (hc0 : c ≠ []) :
    dotNumDotNumToEnd ('.' :: (b ++ '.' :: c)) = true := by
  unfold dotNumDotNumToEnd
  simp only
  rw [dropWhile_digits_append b _ hb, takeWhile_digits_append b _ hb]
  simp [isEmpty_false_of_ne_nil hb0, isEmpty_false_of_ne_nil hc0, hc]

theorem replaceDotNumDotNumSuffix_parts (a b c : List Char)
    (ha : a.all Char.isDigit = true) (hb : b.all Char.isDigit = true)
    (hc : c.all Char.isDigit = true) (hb0 : b ≠ []) (hc0 : c ≠ []) :
    replaceDotNumDotNumSuffix (a ++ '.' :: (b ++ '.' :: c)) = a := by
  induction a with
  | nil =>
    unfold replaceDotNumDotNumSuffix
    rw [List.nil_append, dotNumDotNumToEnd_parts b c hb hc hb0 hc0]
    rfl
  | cons x xs ih =>
    simp only [List.all_cons, Bool.and_eq_true] at ha
    have hx : (x == '.') = false := digit_ne_dot ha.1
    have hd : dotNumDotNumToEnd (x :: (xs ++ '.' :: (b ++ '.' :: c))) = false := by
      unfold dotNumDotNumToEnd
      simp [hx]
    unfold replaceDotNumDotNumSuffix
    rw [List.cons_append, hd]
    simp only [Bool.false_eq_true, if_false]
    rw [ih ha.2]

theorem replaceLeadingNumDot_parts (a rest : List Char)
    (ha : a.all Char.isDigit = true) (ha0 : a ≠ []) :
    replaceLeadingNumDot (a ++ '.' :: rest) = rest := by
  unfold replaceLeadingNumDot
  rw [takeWhile_digits_append a _ ha, dropWhile_digits_append a _ ha]
  simp [isEmpty_false_of_ne_nil ha0]

theorem jsParseIntDigits_parts (b rest : List Char)
    (hb : b.all Char.isDigit = true) (hb0 : b ≠ []) :
    jsParseIntDigits (b ++ '.' :: rest) = some (roundToDouble (digitsToNat b)) := by
  unfold jsParseIntDigits
  rw [takeWhile_digits_append b _ hb]
  simp [isEmpty_false_of_ne_nil hb0]

/-- Integers up to 2^53 are exactly representable as doubles, so rounding
leaves them unchanged (2^53 itself is `2^52 * 2`). -/
theorem roundToDouble_eq_of_le (n : Nat) (h : n ≤ 2 ^ 53) : roundToDouble n = n := by
  rcases Nat.lt_or_ge n (2 ^ 53) with h1 | h1
  · unfold roundToDouble
    rw [if_pos h1]
  · have hn : n = 2 ^ 53 := Nat.le_antisymm h h1
    subst hn
    decide

/-- C9 counterexample: `9007199254740992` (2^53) passes the `#.#.#` regex,
but JS `parseInt` yields the double 2^53 and `+ 1` rounds back to 2^53
(ties to even), so the suggestion leaves the minor component unchanged
instead of incrementing it as the claim states. -/
theorem suggested_next_version_overflow_counterexample :
    semverTest "1.9007199254740992.0" = true ∧
    getSuggestedNextRepositoryVersion "1.9007199254740992.0" =
      "1.9007199254740992.0" ∧
    getSuggestedNextRepositoryVersion "1.9007199254740992.0" ≠
      "1.9007199254740993.0" := by
  refine ⟨by decide, by decide, by decide⟩

/-- C9 (amended): for every release version `a.b.c` with `a`, `b`, `c`
decimal digit strings whose minor value satisfies `b + 1 ≤ 2^53` (so that
`parseInt` and the increment are exact in IEEE-754 double arithmetic), the
suggested next version is `a.(b+1).0`: major unchanged, minor incremented by
one, patch zeroed.  At minor 2^53 and beyond the double rounding can leave
the minor unchanged. -/
theorem suggested_next_version_bumps_minor (a b c : List Char)
    (ha : a.all Char.isDigit = true) (hb : b.all Char.isDigit = true)
    (hc : c.all Char.isDigit = true)
    (ha0 : a ≠ []) (hb0 : b ≠ []) (hc0 : c ≠ [])
    (hb53 : digitsToNat b + 1 ≤ 2 ^ 53) :
    getSuggestedNextRepositoryVersion (String.mk (a ++ '.' :: (b ++ '.' :: c))) =
      String.mk a ++ "." ++ toString (digitsToNat b + 1) ++ ".0" := by
  have hsv : semverTest (String.mk (a ++ '.' :: (b ++ '.' :: c))) = true := by
    unfold semverTest
    exact semverChars_parts a b c ha hb hc ha0 hb0 hc0
  unfold getSuggestedNextRepositoryVersion
  rw [hsv]
  simp only [Bool.true_eq_false, if_false]
  unfold suggestedVersionCore
  show String.mk (replaceDotNumDotNumSuffix (a ++ '.' :: (b ++ '.' :: c))) ++ "." ++ _ ++ ".0" = _
  rw [replaceDotNumDotNumSuffix_parts a b c ha hb hc hb0 hc0,
    replaceLeadingNumDot_parts a _ ha ha0, jsParseIntDigits_parts b c hb hb0]
  simp only []
  unfold jsAddOne
  rw [roundToDouble_eq_of_le (digitsToNat b) (Nat.le_of_succ_le hb53),
    roundToDouble_eq_of_le (digitsToNat b + 1) hb53]

/-- Witness for C9 (amended) at the spec's own example: `1.4.6` suggests
`1.5.0`, the minor being far below 2^53. -/
theorem suggested_next_version_bumps_minor_witness :
    getSuggestedNextRepositoryVersion (String.mk (['1'] ++ '.' :: (['4'] ++ '.' :: ['6']))) =
      String.mk ['1'] ++ "." ++ toString (digitsToNat ['4'] + 1) ++ ".0" :=
  suggested_next_version_bumps_minor ['1'] ['4'] ['6']
    (by decide) (by decide) (by decide) (by decide) (by decide) (by decide) (by decide)

/-! ## The version prompt loop (C8) -/

theorem versionPromptLoop_valid (v : String) (answers : List String)
    (h1 : v ≠ "") (h2 : semverTest v = true) :
    versionPromptLoop v answers = some (v, 0) := by
  unfold versionPromptLoop
  simp [h1, h2]

theorem versionPromptLoop_append_invalids (bad : List String) :
    ∀ (v good : String), (v = "" ∨ semverTest v = false) →
    (∀ s ∈ bad, s ≠ "" ∧ semverTest s = false) →
    semverTest good = true →
    versionPromptLoop v (bad ++ [good]) =
      some (good, bad.length + (if v ≠ "" then 1 else 0)) := by
  induction bad with
  | nil =>
    intro v good hv hbad hgood
    have hg0 : good ≠ "" := by
      intro h
      subst h
      exact absurd hgood (by decide)
    have hcond : (v ≠ "" && semverTest v) = false := by
      rcases hv with h | h
      · subst h; simp
      · simp [h]
    unfold versionPromptLoop
    rw [hcond]
    simp only [Bool.false_eq_true, if_false, List.nil_append]
    rw [versionPromptLoop_valid good [] hg0 hgood]
    simp
  | cons s ss ih =>
    intro v good hv hbad hgood
    have hs := hbad s (List.mem_cons_self s ss)
    have hcond : (v ≠ "" && semverTest v) = false := by
      rcases hv with h | h
      · subst h; simp
      · simp [h]
    unfold versionPromptLoop
    rw [hcond]
    simp only [Bool.false_eq_true, if_false, List.cons_append]
    rw [ih s good (Or.inr hs.2) (fun t ht => hbad t (List.mem_cons_of_mem s ht)) hgood]
    simp [hs.1]

/-- C8 counterexample: the empty string fails the `#.#.#` regex, but the loop
re-prompts for it silently (`if (packageVersion)` suppresses the message), so
one failing input followed by a valid one yields zero format-error messages,
not one. -/
theorem version_loop_blank_counterexample :
    semverTest "" = false ∧
    versionPromptLoop "" ["", "1.2.3"] = some ("1.2.3", 0) := by
  exact ⟨by decide, by decide⟩

/-- C8 (amended): for `N` nonempty strings failing the `#.#.#` regex followed
by one matching string, the version prompt loop emits exactly `N`
format-error messages, terminates, and the accepted downstream value is that
first matching string; an empty input is re-prompted without a message. -/
theorem version_loop_counts_and_accepts (bad : List String) (good : String)
    (hbad : ∀ s ∈ bad, s ≠ "" ∧ semverTest s = false)
    (hgood : semverTest good = true) :
    versionPromptLoop "" (bad ++ [good]) = some (good, bad.length) := by
  have h := versionPromptLoop_append_invalids bad "" good (Or.inl rfl) hbad hgood
  simpa using h

/-- Witness for C8: two malformed versions then a valid one give exactly two
error messages and accept the valid one. -/
theorem version_loop_counts_and_accepts_witness :
    versionPromptLoop "" (["1.2", "1.2.3-SNAPSHOT"] ++ ["1.2.3"]) =
      some ("1.2.3", ["1.2", "1.2.3-SNAPSHOT"].length) :=
  version_loop_counts_and_accepts ["1.2", "1.2.3-SNAPSHOT"] "1.2.3" (by decide) (by decide)

/-! ## Tag-existence checking (C10) -/

/-- C10: `doesTagExist` fails closed — any underlying VCS failure (fetch or
listing) makes it report `true`, so negotiation halts with a tag collision
even though no colliding tag was observed; it reports `false` exactly when
the fetch succeeds and the listing succeeds with empty output. -/
theorem doesTagExist_fails_closed :
    (∀ listResult, doesTagExist false listResult = true) ∧
    (∀ fetchOk listResult,
      doesTagExist fetchOk listResult = false ↔ fetchOk = true ∧ listResult = some "") ∧
    (∀ env pf v n, pf.variableSaveFile = none →
      env.remoteExists = true → env.sourceExists = true →
      env.targetAnswer ≠ env.sourceAnswer → env.targetExists = true →
      env.developmentAnswer ≠ env.targetAnswer →
      (env.developmentAnswer = env.sourceAnswer ∨ env.developmentExists = true) →
      env.checkoutTargetOk = true → env.targetCleanFromRemote = true →
      env.checkoutSourceOk = true → env.sourceCleanFromRemote = true →
      versionPromptLoop "" env.versionAnswers = some (v, n) →
      env.tagFetchOk = false →
      ∃ g, getVariables env pf = some g ∧
        g.outcome = Except.error (.tagExists (createReleaseTag v))) := by
  refine ⟨fun listResult => rfl, fun fetchOk listResult => ?_, ?_⟩
  · cases fetchOk with
    | false => simp [doesTagExist]
    | true =>
      cases listResult with
      | none => simp [doesTagExist]
      | some s => simp [doesTagExist]
  · intro env pf v n hnone hremote hsource hts htex hdt hdev hct hclean hcs hcleans hloop hfetch
    have hd : doesTagExist env.tagFetchOk env.tagListResult = true := by
      simp [doesTagExist, hfetch]
    refine ⟨⟨[Event.checkoutBranch env.targetAnswer,
        Event.pullBranchFromRemote env.remoteAnswer env.targetAnswer,
        Event.checkoutBranch env.sourceAnswer,
        Event.pullBranchFromRemote env.remoteAnswer env.sourceAnswer], pf,
        Except.error (.tagExists (createReleaseTag v)), env.currentBranch⟩, ?_, rfl⟩
    rcases hdev with hdev | hdev <;>
      simp [getVariables, hnone, getVariablesFresh, hloop, hremote, hsource, hts,
        Ne.symm hts, htex, hdt, hdev, hct, hclean, hcs, hcleans, hd]

/-- Witness for C10: a failed tag fetch makes negotiation halt with
`TagExists` for the derived tag. -/
theorem doesTagExist_fails_closed_witness :
    doesTagExist false (some "") = true ∧
    ∃ g, getVariables fetchFailGetVarsEnv ProgressFiles.empty = some g ∧
      g.outcome = Except.error (.tagExists (createReleaseTag "1.4.6")) :=
  ⟨doesTagExist_fails_closed.1 (some ""),
   doesTagExist_fails_closed.2.2 fetchFailGetVarsEnv ProgressFiles.empty "1.4.6" 0
     rfl rfl rfl (by decide) rfl (by decide) (Or.inl rfl) rfl rfl rfl rfl (by decide) rfl⟩

/-! ## Negotiation outcomes (workhorse for C5, C6, C7) -/

/-- Exhaustive shape of a fresh negotiation: either it fails with some
validation error, leaving the files untouched and writing no snapshot, or it
succeeds, assembling the variables from the answers (tag derived from the
accepted release version), saving them as the final event, and writing the
snapshot. -/
theorem getVariablesFresh_spec (env : GetVarsEnv) (pf : ProgressFiles) (g : GetVarsResult)
    (hg : getVariablesFresh env pf = some g) :
    ((∃ e, g.outcome = Except.error e) ∧ g.files = pf ∧
      g.trace.countP isSaveVars = 0) ∨
    (∃ pv n nv m,
      versionPromptLoop "" env.versionAnswers = some (pv, n) ∧
      versionPromptLoop "" env.nextVersionAnswers = some (nv, m) ∧
      g.outcome = Except.ok
        (⟨env.remoteAnswer, env.sourceAnswer, env.targetAnswer, env.developmentAnswer,
          pv, nv, createReleaseTag pv⟩, false) ∧
      g.files = { pf with variableSaveFile := some ⟨env.remoteAnswer, env.sourceAnswer,
        env.targetAnswer, env.developmentAnswer, pv, nv, createReleaseTag pv⟩ } ∧
      g.trace =
        [.checkoutBranch env.targetAnswer,
         .pullBranchFromRemote env.remoteAnswer env.targetAnswer,
         .checkoutBranch env.sourceAnswer,
         .pullBranchFromRemote env.remoteAnswer env.sourceAnswer,
         .saveUsersVariables ⟨env.remoteAnswer, env.sourceAnswer, env.targetAnswer,
           env.developmentAnswer, pv, nv, createReleaseTag pv⟩]) := by
  unfold getVariablesFresh at hg
  simp only [] at hg
  cases h1 : env.remoteExists with
  | false =>
    rw [h1] at hg
    injection hg with h
    subst h
    exact Or.inl ⟨⟨_, rfl⟩, rfl, rfl⟩
  | true =>
  rw [h1] at hg
  cases h2 : env.sourceExists with
  | false =>
    rw [h2] at hg
    injection hg with h
    subst h
    exact Or.inl ⟨⟨_, rfl⟩, rfl, rfl⟩
  | true =>
  rw [h2] at hg
  by_cases h3 : env.targetAnswer = env.sourceAnswer
  · rw [if_neg (by simp), if_neg (by simp), if_pos h3] at hg
    injection hg with h
    subst h
    exact Or.inl ⟨⟨_, rfl⟩, rfl, rfl⟩
  rw [if_neg (by simp), if_neg (by simp), if_neg h3] at hg
  cases h4 : env.targetExists with
  | false =>
    rw [h4] at hg
    injection hg with h
    subst h
    exact Or.inl ⟨⟨_, rfl⟩, rfl, rfl⟩
  | true =>
  rw [h4] at hg
  by_cases h5 : env.developmentAnswer = env.targetAnswer
  · rw [if_neg (by simp), if_pos h5] at hg
    injection hg with h
    subst h
    exact Or.inl ⟨⟨_, rfl⟩, rfl, rfl⟩
  rw [if_neg (by simp), if_neg h5] at hg
  by_cases h6 :
      (decide (env.developmentAnswer ≠ env.sourceAnswer) && !env.developmentExists) = true
  · rw [if_pos h6] at hg
    injection hg with h
    subst h
    exact Or.inl ⟨⟨_, rfl⟩, rfl, rfl⟩
  rw [if_neg h6] at hg
  cases h7 : env.checkoutTargetOk with
  | false =>
    rw [h7] at hg
    injection hg with h
    subst h
    exact Or.inl ⟨⟨_, rfl⟩, rfl, rfl⟩
  | true =>
  rw [h7] at hg
  cases h8 : env.targetCleanFromRemote with
  | false =>
    rw [h8] at hg
    injection hg with h
    subst h
    exact Or.inl ⟨⟨_, rfl⟩, rfl, rfl⟩
  | true =>
  rw [h8] at hg
  cases h9 : env.checkoutSourceOk with
  | false =>
    rw [h9] at hg
    injection hg with h
    subst h
    exact Or.inl ⟨⟨_, rfl⟩, rfl, rfl⟩
  | true =>
  rw [h9] at hg
  cases h10 : env.sourceCleanFromRemote with
  | false =>
    rw [h10] at hg
    injection hg with h
    subst h
    exact Or.inl ⟨⟨_, rfl⟩, rfl, rfl⟩
  | true =>
  rw [h10] at hg
  rcases h11 : versionPromptLoop "" env.versionAnswers with _ | ⟨pv, n⟩
  · rw [h11] at hg
    injection hg
  rw [h11] at hg
  simp only [] at hg
  by_cases h12 : doesTagExist env.tagFetchOk env.tagListResult = true
  · rw [if_pos h12] at hg
    injection hg with h
    subst h
    exact Or.inl ⟨⟨_, rfl⟩, rfl, rfl⟩
  rw [if_neg h12] at hg
  rcases h13 : versionPromptLoop "" env.nextVersionAnswers with _ | ⟨nv, m⟩
  · rw [h13] at hg
    injection hg
  rw [h13] at hg
  simp only [] at hg
  injection hg with h
  subst h
  exact Or.inr ⟨pv, n, nv, m, rfl, rfl, rfl, rfl, rfl⟩

/-- C6: a negotiation that fails with a validation error writes no parameter
snapshot (no save event, and the store holds no snapshot afterwards); on a
fresh success the snapshot is saved exactly once, as the final step. -/
theorem snapshot_saved_only_after_validation (env : GetVarsEnv) (pf : ProgressFiles)
    (g : GetVarsResult) (hg : getVariables env pf = some g) :
    ((∃ e, g.outcome = Except.error e) →
      g.trace.countP isSaveVars = 0 ∧ g.files.variableSaveFile = none) ∧
    (∀ vars, g.outcome = Except.ok (vars, false) →
      g.trace.countP isSaveVars = 1 ∧
      g.trace.getLast? = some (.saveUsersVariables vars) ∧
      g.files.variableSaveFile = some vars) := by
  unfold getVariables at hg
  have freshCase : ∀ pf0, pf0.variableSaveFile = none →
      getVariablesFresh env pf0 = some g →
      ((∃ e, g.outcome = Except.error e) →
        g.trace.countP isSaveVars = 0 ∧ g.files.variableSaveFile = none) ∧
      (∀ vars, g.outcome = Except.ok (vars, false) →
        g.trace.countP isSaveVars = 1 ∧
        g.trace.getLast? = some (.saveUsersVariables vars) ∧
        g.files.variableSaveFile = some vars) := by
    intro pf0 hempty hfresh
    rcases getVariablesFresh_spec env pf0 g hfresh with
      ⟨⟨e, he⟩, hfiles, hcount⟩ | ⟨pv, n, nv, m, _, _, ho, hfiles, htrace⟩
    · constructor
      · intro _
        exact ⟨hcount, by rw [hfiles]; exact hempty⟩
      · intro vars hv
        rw [he] at hv
        cases hv
    · constructor
      · rintro ⟨e, he⟩
        rw [ho] at he
        cases he
      · intro vars hv
        rw [ho] at hv
        injection hv with h
        have hvars := congrArg Prod.fst h
        simp only [] at hvars
        subst hvars
        refine ⟨?_, ?_, ?_⟩
        · rw [htrace]; rfl
        · rw [htrace]; rfl
        · rw [hfiles]
  rcases hsnap : pf.variableSaveFile with _ | saved
  · rw [hsnap] at hg
    exact freshCase pf hsnap hg
  · rw [hsnap] at hg
    simp only [] at hg
    by_cases hcont : env.continueAnswer = true
    · rw [if_pos hcont] at hg
      injection hg with h
      subst h
      constructor
      · rintro ⟨e, he⟩
        cases he
      · intro vars hv
        injection hv with h2
        have := congrArg Prod.snd h2
        simp at this
    · rw [if_neg hcont] at hg
      exact freshCase ProgressFiles.empty rfl hg

/-- Witness for C6 at the happy-path scenario: the fresh success saves
exactly once, as the final event. -/
theorem snapshot_saved_only_after_validation_witness :
    happyGetVarsResult.trace.countP isSaveVars = 1 ∧
    happyGetVarsResult.trace.getLast? = some (.saveUsersVariables happyVars) ∧
    happyGetVarsResult.files.variableSaveFile = some happyVars :=
  (snapshot_saved_only_after_validation happyGetVarsEnv ProgressFiles.empty
    happyGetVarsResult (by decide)).2 happyVars rfl

/-! ## Branch-collision rejection (C7) -/

theorem getVariablesFresh_target_collision (env : GetVarsEnv) (pf0 : ProgressFiles)
    (hremote : env.remoteExists = true) (hsource : env.sourceExists = true)
    (heq : env.targetAnswer = env.sourceAnswer) :
    getVariablesFresh env pf0 =
      some ⟨[], pf0, .error .targetAndSourceBranchesMustDiffer, env.currentBranch⟩ := by
  simp [getVariablesFresh, hremote, hsource, heq]

theorem getVariablesFresh_development_collision (env : GetVarsEnv) (pf0 : ProgressFiles)
    (hremote : env.remoteExists = true) (hsource : env.sourceExists = true)
    (hne : env.targetAnswer ≠ env.sourceAnswer) (htex : env.targetExists = true)
    (heq : env.developmentAnswer = env.targetAnswer) :
    getVariablesFresh env pf0 =
      some ⟨[], pf0, .error .developmentAndTargetBranchesMustDiffer, env.currentBranch⟩ := by
  simp [getVariablesFresh, hremote, hsource, hne, htex, heq]

/-- C7: negotiation rejects, with the matching branch-collision error and
before the workflow engine can run, every parameter set whose target branch
equals the source branch, and every one whose development branch equals the
target branch. -/
theorem branch_collisions_rejected (env : GetVarsEnv) (pf : ProgressFiles)
    (hno : pf.variableSaveFile = none ∨ env.continueAnswer = false)
    (hremote : env.remoteExists = true) (hsource : env.sourceExists = true) :
    (env.targetAnswer = env.sourceAnswer →
      ∃ g, getVariables env pf = some g ∧
        g.outcome = Except.error .targetAndSourceBranchesMustDiffer ∧
        ∀ penv renv, checkPrerequisites penv = none →
          deployMain penv env renv pf =
            some ⟨g.trace, g.files, .failed .targetAndSourceBranchesMustDiffer,
              none, false⟩) ∧
    (env.targetAnswer ≠ env.sourceAnswer → env.targetExists = true →
      env.developmentAnswer = env.targetAnswer →
      ∃ g, getVariables env pf = some g ∧
        g.outcome = Except.error .developmentAndTargetBranchesMustDiffer ∧
        ∀ penv renv, checkPrerequisites penv = none →
          deployMain penv env renv pf =
            some ⟨g.trace, g.files, .failed .developmentAndTargetBranchesMustDiffer,
              none, false⟩) := by
  have main : ∀ out : DeployError,
      (∀ pf0, getVariablesFresh env pf0 =
        some ⟨[], pf0, .error out, env.currentBranch⟩) →
      ∃ g, getVariables env pf = some g ∧ g.outcome = Except.error out ∧
        ∀ penv renv, checkPrerequisites penv = none →
          deployMain penv env renv pf =
            some ⟨g.trace, g.files, .failed out, none, false⟩ := by
    intro out hf
    rcases hsnap : pf.variableSaveFile with _ | saved
    · have hgeq : getVariables env pf =
          some ⟨[], pf, .error out, env.currentBranch⟩ := by
        unfold getVariables
        rw [hsnap]
        exact hf pf
      exact ⟨_, hgeq, rfl, fun penv renv hp => by simp [deployMain, hp, hgeq]⟩
    · have hcont : env.continueAnswer = false := by
        rcases hno with h | h
        · rw [hsnap] at h; cases h
        · exact h
      have hgeq : getVariables env pf =
          some ⟨[], ProgressFiles.empty, .error out, env.currentBranch⟩ := by
        unfold getVariables
        rw [hsnap]
        simp only []
        rw [if_neg (by simp [hcont])]
        exact hf ProgressFiles.empty
      exact ⟨_, hgeq, rfl, fun penv renv hp => by simp [deployMain, hp, hgeq]⟩
  constructor
  · intro heq
    exact main _ fun pf0 =>
      getVariablesFresh_target_collision env pf0 hremote hsource heq
  · intro hne htex heq
    exact main _ fun pf0 =>
      getVariablesFresh_development_collision env pf0 hremote hsource hne htex heq

/-- Witness for C7: entering `develop` for both source and target is rejected
with the collision error, and a full invocation fails without the workflow
engine running. -/
theorem branch_collisions_rejected_witness :
    getVariables collideGetVarsEnv ProgressFiles.empty =
      some ⟨[], ProgressFiles.empty, .error .targetAndSourceBranchesMustDiffer,
        "feature"⟩ ∧
    deployMain ⟨true, true, true⟩ collideGetVarsEnv happyRunEnv ProgressFiles.empty =
      some ⟨[], ProgressFiles.empty, .failed .targetAndSourceBranchesMustDiffer,
        none, false⟩ := by
  obtain ⟨g, h1, _, h3⟩ :=
    (branch_collisions_rejected collideGetVarsEnv ProgressFiles.empty
      (Or.inl rfl) rfl rfl).1 rfl
  have hc : getVariables collideGetVarsEnv ProgressFiles.empty =
      some ⟨[], ProgressFiles.empty, .error .targetAndSourceBranchesMustDiffer,
        "feature"⟩ := by decide
  have hgl : g = ⟨[], ProgressFiles.empty, .error .targetAndSourceBranchesMustDiffer,
      "feature"⟩ := by
    rw [hc] at h1
    injection h1 with h
    exact h.symm
  subst hgl
  exact ⟨hc, h3 ⟨true, true, true⟩ happyRunEnv rfl⟩

/-! ## The release tag (C5) -/

/-- C5 counterexample: the tag is persisted in the parameter snapshot and
rehydrated verbatim on resume — with a snapshot whose stored tag is `v9.9.9`
against release version `1.4.6`, the resumed run uses `v9.9.9`, not the
recomputed `v1.4.6`, refuting "deterministically recomputed rather than
independently persisted". -/
theorem release_tag_persistence_counterexample :
    getVariables resumeGetVarsEnv
        { ProgressFiles.empty with variableSaveFile := some savedTagMismatch } =
      some ⟨[], { ProgressFiles.empty with variableSaveFile := some savedTagMismatch },
        .ok (savedTagMismatch, true), ""⟩ ∧
    savedTagMismatch.tag ≠ createReleaseTag savedTagMismatch.packageVersion := by
  exact ⟨rfl, by decide⟩

/-- C5 (amended): the release tag is `v` prepended to the release version,
derived once during fresh negotiation (and then used for the collision check
and, via `release/<tag>`, the release branch name); it is stored in the
parameter snapshot and on resumption rehydrated verbatim from the snapshot
rather than recomputed. -/
theorem release_tag_derivation :
    (∀ v, createReleaseTag v = "v" ++ v) ∧
    (∀ t, createReleaseBranchName t = "release/" ++ t) ∧
    (∀ env pf g vars resumed, getVariables env pf = some g →
      g.outcome = Except.ok (vars, resumed) → resumed = false →
      vars.tag = createReleaseTag vars.packageVersion) ∧
    (∀ env pf saved, pf.variableSaveFile = some saved → env.continueAnswer = true →
      getVariables env pf = some ⟨[], pf, .ok (saved, true), ""⟩) := by
  refine ⟨fun v => rfl, fun t => rfl, ?_, ?_⟩
  · intro env pf g vars resumed hg hout hres
    subst hres
    unfold getVariables at hg
    have freshCase : ∀ pf0, getVariablesFresh env pf0 = some g →
        vars.tag = createReleaseTag vars.packageVersion := by
      intro pf0 hfresh
      rcases getVariablesFresh_spec env pf0 g hfresh with
        ⟨⟨e, he⟩, _, _⟩ | ⟨pv, n, nv, m, _, _, ho, _, _⟩
      · rw [he] at hout
        cases hout
      · rw [ho] at hout
        injection hout with h
        have hvars := congrArg Prod.fst h
        simp only [] at hvars
        subst hvars
        rfl
    rcases hsnap : pf.variableSaveFile with _ | saved
    · rw [hsnap] at hg
      exact freshCase pf hg
    · rw [hsnap] at hg
      simp only [] at hg
      by_cases hcont : env.continueAnswer = true
      · rw [if_pos hcont] at hg
        injection hg with h
        subst h
        injection hout with h2
        have hb := congrArg Prod.snd h2
        simp at hb
      · rw [if_neg hcont] at hg
        exact freshCase ProgressFiles.empty hg
  · intro env pf saved hsnap hcont
    unfold getVariables
    rw [hsnap]
    simp only []
    rw [if_pos hcont]

/-- Witness for C5 (amended) at concrete values: the v-prefix, the branch
name derivation, the fresh-path tag, and the verbatim rehydration. -/
theorem release_tag_derivation_witness :
    createReleaseTag "1.4.6" = "v" ++ "1.4.6" ∧
    createReleaseBranchName "v1.4.6" = "release/" ++ "v1.4.6" ∧
    happyVars.tag = createReleaseTag happyVars.packageVersion ∧
    getVariables resumeGetVarsEnv
        { ProgressFiles.empty with variableSaveFile := some savedTagMismatch } =
      some ⟨[], { ProgressFiles.empty with variableSaveFile := some savedTagMismatch },
        .ok (savedTagMismatch, true), ""⟩ :=
  ⟨release_tag_derivation.1 "1.4.6", release_tag_derivation.2.1 "v1.4.6",
   release_tag_derivation.2.2.1 happyGetVarsEnv ProgressFiles.empty happyGetVarsResult
     happyVars false (by decide) rfl rfl,
   release_tag_derivation.2.2.2 resumeGetVarsEnv
     { ProgressFiles.empty with variableSaveFile := some savedTagMismatch }
     savedTagMismatch rfl rfl⟩

/-! ## Development pull failure (C4) -/

/-- C4 counterexample: with no marker set and the development-branch pull
failing with no conflicts detected, the engine halts with the pull error AND
persists the developmentPull marker — the claim says no marker is persisted
for a non-conflict pull failure. -/
theorem development_pull_marker_counterexample :
    pullFailRunEnv.conflictsAfterDevelopmentPull = false ∧
    (run happyVars pullFailRunEnv ProgressFiles.empty).error =
      some (.errorOnPull "develop") ∧
    (run happyVars pullFailRunEnv ProgressFiles.empty).files.developmentPullMergeLock
      = true := by
  refine ⟨rfl, ?_, ?_⟩ <;> rfl

/-- C4 (amended): on any failed pull of the development branch the engine
persists the developmentPull marker first, then halts with
`MergeConflictsOnPull` when conflicts are detected and with the pull error
otherwise — the marker is persisted in both cases. -/
theorem development_pull_failure_persists_marker (vars : UsersVariables) (env : RunEnv)
    (pf : ProgressFiles)
    (hdm : pf.developmentMergeLock = false)
    (hpull : env.pullDevelopmentOk = false)
    (hreach : pf.developmentPullMergeLock = true ∨
      (env.createReleaseBranchOk = true ∧ env.mergeSourceOk = true ∧
        env.pushTargetOk = true ∧ env.pushTagOk = true)) :
    (run vars env pf).error =
      some (if env.conflictsAfterDevelopmentPull then DeployError.mergeConflictsOnPull
        else DeployError.errorOnPull vars.developmentBranch) ∧
    (run vars env pf).files.developmentPullMergeLock = true := by
  cases hdp : pf.developmentPullMergeLock with
  | true =>
    constructor <;>
      simp [run, hdm, hdp, StepResult.andThen, developmentPullRecoverySection,
        developmentPullSection, finalSection, hpull, ProgressFiles.setLock]
  | false =>
    rcases hreach with hdp2 | ⟨h1, h2, h3, h4⟩
    · rw [hdp] at hdp2
      exact absurd hdp2 (by simp)
    · cases htg : pf.taggingLock with
      | true =>
        constructor <;>
          simp [run, hdm, hdp, htg, StepResult.andThen, taggingRecoverySection,
            tagPushSection, developmentPullSection, finalSection, hpull, h4,
            ProgressFiles.setLock]
      | false =>
        cases htm : pf.targetMergeLock with
        | true =>
          constructor <;>
            simp [run, hdm, hdp, htg, htm, StepResult.andThen,
              targetMergeRecoverySection, tagCreationSection, tagPushSection,
              developmentPullSection, finalSection, hpull, h4, ProgressFiles.setLock]
        | false =>
          cases hsm : pf.sourceMergeLock with
          | true =>
            constructor <;>
              simp [run, hdm, hdp, htg, htm, hsm, StepResult.andThen,
                sourceMergeSection, releaseToTargetSection, tagCreationSection,
                tagPushSection, developmentPullSection, finalSection, hpull,
                h1, h2, h3, h4, ProgressFiles.setLock]
          | false =>
            constructor <;>
              simp [run, hdm, hdp, htg, htm, hsm, StepResult.andThen,
                sourceMergeSection, releaseToTargetSection, tagCreationSection,
                tagPushSection, developmentPullSection, finalSection, hpull,
                h1, h2, h3, h4, ProgressFiles.setLock]

/-- Witness for C4 (amended) at the concrete failing input. -/
theorem development_pull_failure_persists_marker_witness :
    (run happyVars pullFailRunEnv ProgressFiles.empty).error =
      some (if pullFailRunEnv.conflictsAfterDevelopmentPull then
          DeployError.mergeConflictsOnPull
        else DeployError.errorOnPull happyVars.developmentBranch) ∧
    (run happyVars pullFailRunEnv ProgressFiles.empty).files.developmentPullMergeLock
      = true :=
  development_pull_failure_persists_marker happyVars pullFailRunEnv ProgressFiles.empty
    rfl rfl (Or.inr ⟨rfl, rfl, rfl, rfl⟩)

/-! ## Terminal success (C3) -/

/-- C3: when the prerequisites pass, negotiation succeeds and every workflow
stage succeeds, `main` runs `finish`: the checkpoint is reset entirely (the
parameter snapshot and all five stage markers deleted), the repository is
checked out back to the branch recorded at negotiation start (or the
development branch when that is empty/undeterminable), and the reported
status is Finished. -/
theorem main_success_resets_checkpoint (penv : PrereqEnv) (genv : GetVarsEnv)
    (renv : RunEnv) (pf : ProgressFiles) (g : GetVarsResult)
    (vars : UsersVariables) (resumed : Bool)
    (hp : checkPrerequisites penv = none)
    (hg : getVariables genv pf = some g)
    (hok : g.outcome = Except.ok (vars, resumed))
    (hrun : (run vars renv g.files).error = none) :
    deployMain penv genv renv pf =
      some ⟨g.trace ++ (run vars renv g.files).trace ++
          [Event.checkoutBranch (if g.initialBranch ≠ "" then g.initialBranch
            else vars.developmentBranch)],
        ProgressFiles.empty, .finished,
        some (if g.initialBranch ≠ "" then g.initialBranch
          else vars.developmentBranch), true⟩ := by
  simp [deployMain, hp, hg, hok, hrun, finish]

/-- Witness for C3: the spec's happy-path scenario ends Finished with a fully
cleared checkpoint, back on the operator's original `feature` branch. -/
theorem main_success_resets_checkpoint_witness :
    deployMain ⟨true, true, true⟩ happyGetVarsEnv happyRunEnv ProgressFiles.empty =
      some ⟨happyGetVarsResult.trace ++
          (run happyVars happyRunEnv happyGetVarsResult.files).trace ++
          [Event.checkoutBranch (if happyGetVarsResult.initialBranch ≠ "" then
            happyGetVarsResult.initialBranch else happyVars.developmentBranch)],
        ProgressFiles.empty, .finished,
        some (if happyGetVarsResult.initialBranch ≠ "" then
          happyGetVarsResult.initialBranch else happyVars.developmentBranch), true⟩ :=
  main_success_resets_checkpoint ⟨true, true, true⟩ happyGetVarsEnv happyRunEnv
    ProgressFiles.empty happyGetVarsResult happyVars false rfl (by decide) rfl rfl

/-! ## Trace bounds for the workflow sections (C1, C2) -/

theorem andThen_trace_bound {A : StepResult} {B : ProgressFiles → StepResult}
    {LA LB : List Event} (hA : A.trace ⊆ LA) (hB : ∀ pf, (B pf).trace ⊆ LB) :
    (A.andThen B).trace ⊆ LA ++ LB := by
  unfold StepResult.andThen
  split
  · exact fun e he => List.mem_append_left _ (hA he)
  · intro e he
    simp only [List.mem_append] at he ⊢
    rcases he with h | h
    · exact Or.inl (hA h)
    · exact Or.inr (hB _ h)

theorem andThen_trace_head (A : StepResult) (k : ProgressFiles → StepResult) :
    ∃ rest, (A.andThen k).trace = A.trace ++ rest := by
  unfold StepResult.andThen
  split
  · exact ⟨[], (List.append_nil _).symm⟩
  · exact ⟨_, rfl⟩

theorem trace_prefix_trans {B : StepResult} {p : List Event}
    (h : ∃ r, B.trace = p ++ r) (k : ProgressFiles → StepResult) :
    ∃ r, (B.andThen k).trace = p ++ r := by
  obtain ⟨r, hr⟩ := h
  obtain ⟨r2, hr2⟩ := andThen_trace_head B k
  exact ⟨r ++ r2, by rw [hr2, hr, List.append_assoc]⟩

theorem sourceMergeSection_bound (vars : UsersVariables) (env : RunEnv)
    (m : Bool) (pf : ProgressFiles) :
    (sourceMergeSection vars env m pf).trace ⊆ sourceMergeEvents vars := by
  unfold sourceMergeSection sourceMergeEvents
  split <;> [skip; simp]
  split <;> [simp; skip]
  split <;> [simp; skip]
  split <;> simp

theorem releaseToTargetSection_bound (vars : UsersVariables) (env : RunEnv)
    (pf : ProgressFiles) :
    (releaseToTargetSection vars env pf).trace ⊆ releaseToTargetEvents vars env := by
  unfold releaseToTargetSection releaseToTargetEvents
  split <;> split <;> intro e he <;> simp at he ⊢ <;> tauto

theorem targetMergeRecoverySection_bound (vars : UsersVariables) (pf : ProgressFiles) :
    (targetMergeRecoverySection vars pf).trace ⊆ markerCleanup vars .targetMerge := by
  unfold targetMergeRecoverySection markerCleanup
  exact fun e he => he

theorem tagCreationSection_bound (vars : UsersVariables) (pf : ProgressFiles) :
    (tagCreationSection vars pf).trace ⊆ tagCreationEvents vars := by
  unfold tagCreationSection tagCreationEvents
  exact fun e he => he

theorem taggingRecoverySection_bound (pf : ProgressFiles) :
    (taggingRecoverySection pf).trace ⊆ [Event.unlinkLock .tagging] := by
  unfold taggingRecoverySection
  exact fun e he => he

theorem tagPushSection_bound (vars : UsersVariables) (env : RunEnv)
    (pf : ProgressFiles) :
    (tagPushSection vars env pf).trace ⊆ tagPushEvents vars := by
  unfold tagPushSection tagPushEvents
  split <;> simp

theorem developmentPullRecoverySection_bound (pf : ProgressFiles) :
    (developmentPullRecoverySection pf).trace ⊆ [Event.unlinkLock .developmentPull] := by
  unfold developmentPullRecoverySection
  exact fun e he => he

theorem developmentPullSection_bound (vars : UsersVariables) (env : RunEnv)
    (pf : ProgressFiles) :
    (developmentPullSection vars env pf).trace ⊆ developmentPullEvents vars := by
  unfold developmentPullSection developmentPullEvents
  split <;> simp

theorem developmentMergeRecoverySection_bound (pf : ProgressFiles) :
    (developmentMergeRecoverySection pf).trace ⊆ [Event.unlinkLock .developmentMerge] := by
  unfold developmentMergeRecoverySection
  exact fun e he => he

theorem finalSection_bound (vars : UsersVariables) (env : RunEnv)
    (pf : ProgressFiles) :
    (finalSection vars env pf).trace ⊆ finalEvents vars env := by
  unfold finalSection finalEvents
  split <;> [simp; skip]
  split <;> split <;> intro e he <;> simp at he ⊢ <;> tauto

/-- Explicit form of `isEarlierStageEffect`, one disjunction per marker. -/
theorem isEarlierStageEffect_eq (vars : UsersVariables) (m : LockFile) (e : Event) :
    isEarlierStageEffect vars m e =
      match m with
      | .sourceMerge => false
      | .targetMerge =>
        primaryStageEffect vars 1 e || (primaryStageEffect vars 2 e || false)
      | .tagging =>
        primaryStageEffect vars 1 e || (primaryStageEffect vars 2 e ||
          (primaryStageEffect vars 3 e || false))
      | .developmentPull =>
        primaryStageEffect vars 1 e || (primaryStageEffect vars 2 e ||
          (primaryStageEffect vars 3 e || (primaryStageEffect vars 4 e || false)))
      | .developmentMerge =>
        primaryStageEffect vars 1 e || (primaryStageEffect vars 2 e ||
          (primaryStageEffect vars 3 e || (primaryStageEffect vars 4 e ||
            (primaryStageEffect vars 5 e || false)))) := by
  cases m <;> rfl

/-! ## Resumption skips earlier stages (C1) -/

/-- C1: starting from any checkpoint in which a stage marker is present (the
operative marker being the latest one, as the nested checks consult them),
the workflow re-executes no primary side effect of any stage earlier than the
marked stage — no release-branch creation, source merge, release version
bump, target push, tag creation/push or development pull belonging to an
earlier stage — and the trace begins with exactly the marked stage's own
cleanup (unlinking its lock file, plus deleting the now-redundant remote
release branch for `targetMerge`) before execution resumes. -/
theorem resumption_skips_earlier_stage_effects (vars : UsersVariables) (env : RunEnv)
    (pf : ProgressFiles) (m : LockFile)
    (hm : latestMarker pf = some m) (hsep : namesSeparated vars) :
    (∀ e ∈ (run vars env pf).trace, isEarlierStageEffect vars m e = false) ∧
    (run vars env pf).trace.take (markerCleanup vars m).length = markerCleanup vars m := by
  obtain ⟨hst, htd, hpn, hrt, hrm, hsm, htm2, htt, htd2⟩ := hsep
  unfold latestMarker at hm
  by_cases hdm : pf.developmentMergeLock = true
  · rw [if_pos hdm] at hm
    injection hm with hm2
    subst hm2
    have hrun : run vars env pf =
        (developmentMergeRecoverySection pf).andThen (finalSection vars env) := by
      simp [run, hdm]
    constructor
    · intro e he
      rw [hrun] at he
      have hmem := andThen_trace_bound (developmentMergeRecoverySection_bound pf)
        (fun pf2 => finalSection_bound vars env pf2) he
      have hall : ∀ x ∈ ([Event.unlinkLock .developmentMerge] ++ finalEvents vars env),
          isEarlierStageEffect vars .developmentMerge x = false := by
        intro x hx
        simp only [finalEvents, List.mem_append, List.mem_cons,
          List.not_mem_nil, or_false, or_assoc] at hx
        rcases hx with rfl | rfl | rfl | rfl | rfl | rfl | rfl | rfl | rfl | rfl | rfl | rfl <;>
          simp [isEarlierStageEffect_eq, primaryStageEffect, hst, htd, hpn, hrt, hrm,
            hsm, htm2, htt, htd2, Ne.symm hst, Ne.symm htd, Ne.symm hpn, Ne.symm hrt,
            Ne.symm hrm, Ne.symm hsm, Ne.symm htm2, Ne.symm htt, Ne.symm htd2]
      exact hall e hmem
    · rw [hrun]
      obtain ⟨r, hr⟩ := andThen_trace_head (developmentMergeRecoverySection pf)
        (finalSection vars env)
      rw [hr]
      exact List.take_left _ _
  · rw [if_neg hdm] at hm
    simp only [Bool.not_eq_true] at hdm
    by_cases hdp : pf.developmentPullMergeLock = true
    · rw [if_pos hdp] at hm
      injection hm with hm2
      subst hm2
      have hrun : run vars env pf =
          ((developmentPullRecoverySection pf).andThen
            (developmentPullSection vars env)).andThen (finalSection vars env) := by
        simp [run, hdm, hdp]
      constructor
      · intro e he
        rw [hrun] at he
        have hmem := andThen_trace_bound
          (andThen_trace_bound (developmentPullRecoverySection_bound pf)
            (fun pf2 => developmentPullSection_bound vars env pf2))
          (fun pf2 => finalSection_bound vars env pf2) he
        have hall : ∀ x ∈ (([Event.unlinkLock .developmentPull] ++
            developmentPullEvents vars) ++ finalEvents vars env),
            isEarlierStageEffect vars .developmentPull x = false := by
          intro x hx
          simp only [developmentPullEvents, finalEvents, List.mem_append, List.mem_cons,
            List.not_mem_nil, or_false, or_assoc] at hx
          rcases hx with rfl | rfl | rfl | rfl | rfl | rfl | rfl | rfl | rfl | rfl | rfl | rfl | rfl | rfl | rfl | rfl <;>
            simp [isEarlierStageEffect_eq, primaryStageEffect, hst, htd, hpn, hrt, hrm,
            hsm, htm2, htt, htd2, Ne.symm hst, Ne.symm htd, Ne.symm hpn, Ne.symm hrt,
            Ne.symm hrm, Ne.symm hsm, Ne.symm htm2, Ne.symm htt, Ne.symm htd2]
        exact hall e hmem
      · rw [hrun]
        have h1 : ∃ r, ((developmentPullRecoverySection pf).andThen
            (developmentPullSection vars env)).trace =
            markerCleanup vars .developmentPull ++ r :=
          andThen_trace_head _ _
        obtain ⟨r, hr⟩ := trace_prefix_trans h1 (finalSection vars env)
        rw [hr]
        exact List.take_left _ _
    · rw [if_neg hdp] at hm
      simp only [Bool.not_eq_true] at hdp
      by_cases htg : pf.taggingLock = true
      · rw [if_pos htg] at hm
        injection hm with hm2
        subst hm2
        have hrun : run vars env pf =
            (((taggingRecoverySection pf).andThen (tagPushSection vars env)).andThen
              (developmentPullSection vars env)).andThen (finalSection vars env) := by
          simp [run, hdm, hdp, htg]
        constructor
        · intro e he
          rw [hrun] at he
          have hmem := andThen_trace_bound
            (andThen_trace_bound
              (andThen_trace_bound (taggingRecoverySection_bound pf)
                (fun pf2 => tagPushSection_bound vars env pf2))
              (fun pf2 => developmentPullSection_bound vars env pf2))
            (fun pf2 => finalSection_bound vars env pf2) he
          have hall : ∀ x ∈ ((([Event.unlinkLock .tagging] ++ tagPushEvents vars) ++
              developmentPullEvents vars) ++ finalEvents vars env),
              isEarlierStageEffect vars .tagging x = false := by
            intro x hx
            simp only [tagPushEvents, developmentPullEvents, finalEvents,
              List.mem_append, List.mem_cons, List.not_mem_nil, or_false, or_assoc] at hx
            rcases hx with rfl | rfl | rfl | rfl | rfl | rfl | rfl | rfl | rfl | rfl | rfl | rfl | rfl | rfl | rfl | rfl | rfl | rfl | rfl <;>
              simp [isEarlierStageEffect_eq, primaryStageEffect, hst, htd, hpn, hrt, hrm,
            hsm, htm2, htt, htd2, Ne.symm hst, Ne.symm htd, Ne.symm hpn, Ne.symm hrt,
            Ne.symm hrm, Ne.symm hsm, Ne.symm htm2, Ne.symm htt, Ne.symm htd2]
          exact hall e hmem
        · rw [hrun]
          have h1 : ∃ r, ((taggingRecoverySection pf).andThen
              (tagPushSection vars env)).trace =
              markerCleanup vars .tagging ++ r := andThen_trace_head _ _
          have h2 := trace_prefix_trans h1 (developmentPullSection vars env)
          obtain ⟨r, hr⟩ := trace_prefix_trans h2 (finalSection vars env)
          rw [hr]
          exact List.take_left _ _
      · rw [if_neg htg] at hm
        simp only [Bool.not_eq_true] at htg
        by_cases htm : pf.targetMergeLock = true
        · rw [if_pos htm] at hm
          injection hm with hm2
          subst hm2
          have hrun : run vars env pf =
              ((((targetMergeRecoverySection vars pf).andThen
                (tagCreationSection vars)).andThen (tagPushSection vars env)).andThen
                (developmentPullSection vars env)).andThen (finalSection vars env) := by
            simp [run, hdm, hdp, htg, htm]
          constructor
          · intro e he
            rw [hrun] at he
            have hmem := andThen_trace_bound
              (andThen_trace_bound
                (andThen_trace_bound
                  (andThen_trace_bound (targetMergeRecoverySection_bound vars pf)
                    (fun pf2 => tagCreationSection_bound vars pf2))
                  (fun pf2 => tagPushSection_bound vars env pf2))
                (fun pf2 => developmentPullSection_bound vars env pf2))
              (fun pf2 => finalSection_bound vars env pf2) he
            have hall : ∀ x ∈ ((((markerCleanup vars .targetMerge ++
                tagCreationEvents vars) ++ tagPushEvents vars) ++
                developmentPullEvents vars) ++ finalEvents vars env),
                isEarlierStageEffect vars .targetMerge x = false := by
              intro x hx
              simp only [markerCleanup, tagCreationEvents, tagPushEvents,
                developmentPullEvents, finalEvents, List.mem_append, List.mem_cons,
                List.not_mem_nil, or_false, or_assoc] at hx
              rcases hx with rfl | rfl | rfl | rfl | rfl | rfl | rfl | rfl | rfl | rfl | rfl | rfl | rfl | rfl | rfl | rfl | rfl | rfl | rfl | rfl | rfl | rfl | rfl | rfl <;>
                simp [isEarlierStageEffect_eq, primaryStageEffect, hst, htd, hpn, hrt, hrm,
            hsm, htm2, htt, htd2, Ne.symm hst, Ne.symm htd, Ne.symm hpn, Ne.symm hrt,
            Ne.symm hrm, Ne.symm hsm, Ne.symm htm2, Ne.symm htt, Ne.symm htd2]
            exact hall e hmem
          · rw [hrun]
            have h1 : ∃ r, ((targetMergeRecoverySection vars pf).andThen
                (tagCreationSection vars)).trace =
                markerCleanup vars .targetMerge ++ r := andThen_trace_head _ _
            have h2 := trace_prefix_trans h1 (tagPushSection vars env)
            have h3 := trace_prefix_trans h2 (developmentPullSection vars env)
            obtain ⟨r, hr⟩ := trace_prefix_trans h3 (finalSection vars env)
            rw [hr]
            exact List.take_left _ _
        · rw [if_neg htm] at hm
          simp only [Bool.not_eq_true] at htm
          by_cases hsm3 : pf.sourceMergeLock = true
          · rw [if_pos hsm3] at hm
            injection hm with hm2
            subst hm2
            have hrun : run vars env pf =
                ((((((sourceMergeSection vars env false pf).andThen
                  (releaseToTargetSection vars env)).andThen
                  (tagCreationSection vars)).andThen (tagPushSection vars env)).andThen
                  (developmentPullSection vars env)).andThen (finalSection vars env)) := by
              simp [run, hdm, hdp, htg, htm, hsm3]
            constructor
            · intro e he
              exact rfl
            · rw [hrun]
              have h0 : ∃ r, (sourceMergeSection vars env false pf).trace =
                  markerCleanup vars .sourceMerge ++ r := ⟨[], rfl⟩
              have h1 := trace_prefix_trans h0 (releaseToTargetSection vars env)
              have h2 := trace_prefix_trans h1 (tagCreationSection vars)
              have h3 := trace_prefix_trans h2 (tagPushSection vars env)
              have h4 := trace_prefix_trans h3 (developmentPullSection vars env)
              obtain ⟨r, hr⟩ := trace_prefix_trans h4 (finalSection vars env)
              rw [hr]
              exact List.take_left _ _
          · rw [if_neg hsm3] at hm
            injection hm

/-- Witness for C1: resuming the happy-path scenario from a `targetMerge`
checkpoint repeats no earlier-stage side effect and starts with that
marker's cleanup. -/
theorem resumption_skips_earlier_stage_effects_witness :
    (∀ e ∈ (run happyVars happyRunEnv
        { ProgressFiles.empty with targetMergeLock := true }).trace,
      isEarlierStageEffect happyVars .targetMerge e = false) ∧
    (run happyVars happyRunEnv
        { ProgressFiles.empty with targetMergeLock := true }).trace.take
        (markerCleanup happyVars .targetMerge).length =
      markerCleanup happyVars .targetMerge :=
  resumption_skips_earlier_stage_effects happyVars happyRunEnv
    { ProgressFiles.empty with targetMergeLock := true } .targetMerge rfl (by decide)

/-! ## targetMerge resumption (C2) -/

/-- C2: a run started with the `targetMerge` marker operative (present, no
later marker set) does not re-merge the release branch into target and does
not re-push target; instead it unlinks the marker, deletes the remote
release branch, deletes the local release branch, and proceeds directly to
tag creation on the refreshed target. -/
theorem targetMerge_resume_skips_target_push (vars : UsersVariables) (env : RunEnv)
    (pf : ProgressFiles)
    (htm : pf.targetMergeLock = true) (htg : pf.taggingLock = false)
    (hdp : pf.developmentPullMergeLock = false) (hdm : pf.developmentMergeLock = false)
    (hsep : namesSeparated vars) :
    (∀ u, Event.pushToRemote vars.remote vars.targetBranch u ∉ (run vars env pf).trace) ∧
    Event.mergeBranch (createReleaseBranchName vars.tag) ∉ (run vars env pf).trace ∧
    (run vars env pf).trace.take 6 =
      [Event.unlinkLock .targetMerge,
       Event.deleteRemoteBranch vars.remote (createReleaseBranchName vars.tag),
       Event.deleteLocalBranch (createReleaseBranchName vars.tag) true,
       Event.checkoutBranch vars.targetBranch,
       Event.pullBranchFromRemote vars.remote vars.targetBranch,
       Event.createTag vars.tag] := by
  obtain ⟨hst, htd, hpn, hrt, hrm, hsm, htm2, htt, htd2⟩ := hsep
  have hrun : run vars env pf =
      ((((targetMergeRecoverySection vars pf).andThen (tagCreationSection vars)).andThen
        (tagPushSection vars env)).andThen (developmentPullSection vars env)).andThen
        (finalSection vars env) := by
    simp [run, hdm, hdp, htg, htm]
  have hbound : ∀ {e}, e ∈ (run vars env pf).trace →
      e ∈ ((((markerCleanup vars .targetMerge ++ tagCreationEvents vars) ++
        tagPushEvents vars) ++ developmentPullEvents vars) ++ finalEvents vars env) := by
    intro e he
    rw [hrun] at he
    exact andThen_trace_bound
      (andThen_trace_bound
        (andThen_trace_bound
          (andThen_trace_bound (targetMergeRecoverySection_bound vars pf)
            (fun pf2 => tagCreationSection_bound vars pf2))
          (fun pf2 => tagPushSection_bound vars env pf2))
        (fun pf2 => developmentPullSection_bound vars env pf2))
      (fun pf2 => finalSection_bound vars env pf2) he
  refine ⟨?_, ?_, ?_⟩
  · intro u hmem
    have hx := hbound hmem
    simp only [markerCleanup, tagCreationEvents, tagPushEvents, developmentPullEvents,
      finalEvents, List.mem_append, List.mem_cons, List.not_mem_nil, or_false] at hx
    simp [hst, htd, hpn, hrt, hrm, hsm, htm2, htt, htd2, Ne.symm hst, Ne.symm htd,
      Ne.symm hpn, Ne.symm hrt, Ne.symm hrm, Ne.symm hsm, Ne.symm htm2, Ne.symm htt,
      Ne.symm htd2] at hx
  · intro hmem
    have hx := hbound hmem
    simp only [markerCleanup, tagCreationEvents, tagPushEvents, developmentPullEvents,
      finalEvents, List.mem_append, List.mem_cons, List.not_mem_nil, or_false] at hx
    simp [hst, htd, hpn, hrt, hrm, hsm, htm2, htt, htd2, Ne.symm hst, Ne.symm htd,
      Ne.symm hpn, Ne.symm hrt, Ne.symm hrm, Ne.symm hsm, Ne.symm htm2, Ne.symm htt,
      Ne.symm htd2] at hx
  · rw [hrun]
    have h1 : ∃ r, ((targetMergeRecoverySection vars pf).andThen
        (tagCreationSection vars)).trace =
        [Event.unlinkLock .targetMerge,
         Event.deleteRemoteBranch vars.remote (createReleaseBranchName vars.tag),
         Event.deleteLocalBranch (createReleaseBranchName vars.tag) true,
         Event.checkoutBranch vars.targetBranch,
         Event.pullBranchFromRemote vars.remote vars.targetBranch,
         Event.createTag vars.tag] ++ r := ⟨[], rfl⟩
    have h2 := trace_prefix_trans h1 (tagPushSection vars env)
    have h3 := trace_prefix_trans h2 (developmentPullSection vars env)
    obtain ⟨r, hr⟩ := trace_prefix_trans h3 (finalSection vars env)
    rw [hr]
    exact List.take_left
      [Event.unlinkLock LockFile.targetMerge,
       Event.deleteRemoteBranch vars.remote (createReleaseBranchName vars.tag),
       Event.deleteLocalBranch (createReleaseBranchName vars.tag) true,
       Event.checkoutBranch vars.targetBranch,
       Event.pullBranchFromRemote vars.remote vars.targetBranch,
       Event.createTag vars.tag] r

/-- Witness for C2 at the happy-path scenario resumed from `targetMerge`. -/
theorem targetMerge_resume_skips_target_push_witness :
    (∀ u, Event.pushToRemote happyVars.remote happyVars.targetBranch u ∉
      (run happyVars happyRunEnv
        { ProgressFiles.empty with targetMergeLock := true }).trace) ∧
    Event.mergeBranch (createReleaseBranchName happyVars.tag) ∉
      (run happyVars happyRunEnv
        { ProgressFiles.empty with targetMergeLock := true }).trace ∧
    (run happyVars happyRunEnv
        { ProgressFiles.empty with targetMergeLock := true }).trace.take 6 =
      [Event.unlinkLock .targetMerge,
       Event.deleteRemoteBranch happyVars.remote (createReleaseBranchName happyVars.tag),
       Event.deleteLocalBranch (createReleaseBranchName happyVars.tag) true,
       Event.checkoutBranch happyVars.targetBranch,
       Event.pullBranchFromRemote happyVars.remote happyVars.targetBranch,
       Event.createTag happyVars.tag] :=
  targetMerge_resume_skips_target_push happyVars happyRunEnv
    { ProgressFiles.empty with targetMergeLock := true } rfl rfl rfl rfl (by decide)

end Banda
